import Mathlib

/-!
Verification development for the invoice-bot repository.

The definitions below are a shallow embedding of the extraction /
sanitization / validation / encoding pipeline of `src/processor.py` and of
the web variant in `src/main_web_v2.py`.  Python strings are modelled as
`String` (lists of characters); Python `dict`s of payment fields are
modelled by `FieldMap` (each known key an `Option String`, unrecognized
keys collected in `extras`); machine integers are `Nat`/`Int`; fallible
operations return `Option`.
-/

/-- Whitespace predicate modelling Python's `str.strip` / regex `\s` on the
characters that actually occur in this pipeline (ASCII whitespace plus the
no-break space U+00A0). -/
def isWs (c : Char) : Bool :=
  c = ' ' || c = '\t' || c = '\n' || c = '\r' || c = '\x0b' || c = '\x0c' || c = '\u00A0'

/-- Python `str.strip()`: drop leading and trailing whitespace. -/
def pyStripL (l : List Char) : List Char :=
  ((l.dropWhile isWs).reverse.dropWhile isWs).reverse

/-- Python `re.sub(r"\s+", " ", s)`: every maximal run of whitespace becomes
a single space. -/
def collapseWs : List Char → List Char
  | [] => []
  | [c] => if isWs c then [' '] else [c]
  | c :: d :: rest =>
    if isWs c then
      if isWs d then collapseWs (d :: rest)
      else ' ' :: collapseWs (d :: rest)
    else c :: collapseWs (d :: rest)

/-- Character map for `s.replace(NBSP, " ")` in `_sanitize_fields`. -/
def nbspToSpace (c : Char) : Char :=
  if c = '\u00A0' then ' ' else c

/-- Character map for `s.replace("«", '"').replace("»", '"')`. -/
def quoteFix (c : Char) : Char :=
  if c = '«' then '"' else if c = '»' then '"' else c

/-- Character table of `_ocr_digit_fix` (processor.py lines 52-63):
`str.translate` with O→0, o→0, I→1, l→1, í→1, B→8, S→5, Z→2. -/
def ocrFixChar (c : Char) : Char :=
  if c = 'O' then '0'
  else if c = 'o' then '0'
  else if c = 'I' then '1'
  else if c = 'l' then '1'
  else if c = 'í' then '1'
  else if c = 'B' then '8'
  else if c = 'S' then '5'
  else if c = 'Z' then '2'
  else c

/-- Python `re.sub(r"\D+", "", s)` (`_digits_only`): keep only digits. -/
def digitsOnlyL (l : List Char) : List Char :=
  l.filter Char.isDigit

/-- Numeric-field sanitization in `_sanitize_fields`:
`_ocr_digit_fix` followed by `_digits_only`. -/
def sanNumL (l : List Char) : List Char :=
  digitsOnlyL (l.map ocrFixChar)

/-- Purpose sanitization in `_sanitize_fields` (processor.py lines 71-75):
replace NBSP by space, strip, collapse whitespace runs, replace « » by ". -/
def sanPurposeL (l : List Char) : List Char :=
  (collapseWs (pyStripL (l.map nbspToSpace))).map quoteFix

/-- Name/BankName sanitization in `_sanitize_fields` (lines 76-80):
replace NBSP by space, replace « » by ", strip, collapse whitespace runs. -/
def sanNameL (l : List Char) : List Char :=
  collapseWs (pyStripL ((l.map nbspToSpace).map quoteFix))

/-- String wrapper for `sanNumL`. -/
def sanNumS (s : String) : String := (sanNumL s.toList).asString

/-- String wrapper for `sanPurposeL`. -/
def sanPurposeS (s : String) : String := (sanPurposeL s.toList).asString

/-- String wrapper for `sanNameL`. -/
def sanNameS (s : String) : String := (sanNameL s.toList).asString

/-- A Python dict of payment fields: each recognized ST00012 key is either
absent (`none`) or bound to a string; keys other than the nine recognized
ones are kept in `extras` (they are never touched by the sanitizer, the
builder or the preview, but they make the dict truthy). -/
structure FieldMap where
  Name : Option String := none
  PersonalAcc : Option String := none
  BankName : Option String := none
  BIC : Option String := none
  CorrespAcc : Option String := none
  Sum : Option String := none
  Purpose : Option String := none
  PayeeINN : Option String := none
  KPP : Option String := none
  extras : List (String × String) := []
deriving DecidableEq, Repr

/-- Python truthiness of the field dict (`if fields:`): nonempty. -/
def fmTruthy (f : FieldMap) : Bool :=
  f.Name.isSome || f.PersonalAcc.isSome || f.BankName.isSome || f.BIC.isSome ||
  f.CorrespAcc.isSome || f.Sum.isSome || f.Purpose.isSome || f.PayeeINN.isSome ||
  f.KPP.isSome || !f.extras.isEmpty

/-- `_sanitize_fields` (processor.py lines 65-81): OCR digit fixes and
digit-stripping on the account/amount keys, whitespace/quote normalization
on Purpose, Name and BankName.  Keys that are absent stay absent; extra
keys are untouched. -/
def sanitizeFields (f : FieldMap) : FieldMap :=
  { f with
    PersonalAcc := f.PersonalAcc.map sanNumS
    CorrespAcc := f.CorrespAcc.map sanNumS
    BIC := f.BIC.map sanNumS
    Sum := f.Sum.map sanNumS
    PayeeINN := f.PayeeINN.map sanNumS
    KPP := f.KPP.map sanNumS
    Purpose := f.Purpose.map sanPurposeS
    Name := f.Name.map sanNameS
    BankName := f.BankName.map sanNameS }

/-- Split a character list on a separator character, Python
`str.split(sep)` (keeps empty segments). -/
def splitSepC (sep : Char) : List Char → List (List Char)
  | [] => [[]]
  | c :: cs =>
    match splitSepC sep cs with
    | [] => [[]]
    | t :: ts => if c = sep then [] :: t :: ts else (c :: t) :: ts

/-- Python `"|".join(parts)` at the character-list level. -/
def joinPipe : List (List Char) → List Char
  | [] => []
  | [x] => x
  | x :: y :: rest => x ++ '|' :: joinPipe (y :: rest)

/-- The required ST00012 keys, source constant `ST00012_REQUIRED`. -/
def ST00012_REQUIRED : List String :=
  ["Name", "PersonalAcc", "BankName", "BIC", "CorrespAcc", "Sum", "Purpose"]

/-- Segment parts of `_build_st00012_from_fields` (processor.py lines
83-97): the seven required keys with `fields.get(k, '')`, then `PayeeINN`
and `KPP` appended only when truthy (present and nonempty). -/
def buildPartsL (f : FieldMap) : List (List Char) :=
  [("Name=" ++ f.Name.getD "").toList,
   ("PersonalAcc=" ++ f.PersonalAcc.getD "").toList,
   ("BankName=" ++ f.BankName.getD "").toList,
   ("BIC=" ++ f.BIC.getD "").toList,
   ("CorrespAcc=" ++ f.CorrespAcc.getD "").toList,
   ("Sum=" ++ f.Sum.getD "").toList,
   ("Purpose=" ++ f.Purpose.getD "").toList]
  ++ (if f.PayeeINN.getD "" ≠ "" then [("PayeeINN=" ++ f.PayeeINN.getD "").toList] else [])
  ++ (if f.KPP.getD "" ≠ "" then [("KPP=" ++ f.KPP.getD "").toList] else [])

/-- `_build_st00012_from_fields`: `"ST00012|" + "|".join(parts)`. -/
def buildST00012 (f : FieldMap) : String :=
  ("ST00012|".toList ++ joinPipe (buildPartsL f)).asString

/-- Python `"=" in p` / `p.split("=", 1)`: first-`=` key/value split of one
segment, `none` when the segment has no separator (such segments are
skipped by the validator). -/
def kvOf (seg : List Char) : Option (List Char × List Char) :=
  if seg.contains '=' then
    some (seg.takeWhile (fun c => c ≠ '='), (seg.dropWhile (fun c => c ≠ '=')).tail)
  else none

/-- The key/value pairs of the segments after the format tag
(`st.split("|")[1:]` with `k, v = p.split("=", 1)`). -/
def entriesOf (l : List Char) : List (List Char × List Char) :=
  ((splitSepC '|' l).tail).filterMap kvOf

/-- Python dict lookup with last-write-wins insertion order (the parse loop
`fields[k] = v`). -/
def pyDictGet (entries : List (List Char × List Char)) (k : List Char) :
    Option (List Char) :=
  (entries.reverse.find? (fun e => e.1 == k)).map (fun e => e.2)

/-- Python `s.isdigit()` for ASCII content: nonempty and all digits. -/
def pyIsdigitL (l : List Char) : Bool :=
  !l.isEmpty && l.all Char.isDigit

/-- Numeric value of a digit string, Python `int(s)` for all-digit `s`. -/
def natOfDigits (l : List Char) : Nat :=
  l.foldl (fun n c => n * 10 + (c.toNat - 48)) 0

/-- `_validate_st00012` (processor.py lines 301-335): format-tag check,
`key=value` parsing that skips separator-less segments, required-key /
digit-length / amount / purpose checks, each returning its specific reason
string, `none` on success. -/
def validateST00012 (st : String) : Option String :=
  let l := st.toList
  if !("ST00012|".toList.isPrefixOf l) then some "payload is not ST00012"
  else
    let entries := entriesOf l
    let get := fun (k : String) => pyDictGet entries k.toList
    let missing := ST00012_REQUIRED.filter (fun k =>
      match get k with
      | none => true
      | some v => (pyStripL v).isEmpty)
    if !missing.isEmpty then
      some ("missing:" ++ String.intercalate "," missing)
    else
      let bic := digitsOnlyL ((get "BIC").getD [])
      let pa := digitsOnlyL ((get "PersonalAcc").getD [])
      let ca := digitsOnlyL ((get "CorrespAcc").getD [])
      let s := digitsOnlyL ((get "Sum").getD [])
      if bic.length ≠ 9 then some "bad_bic"
      else if pa.length ≠ 20 then some "bad_personal"
      else if ca.length ≠ 20 then some "bad_corresp"
      else if !pyIsdigitL s || natOfDigits s ≤ 0 then some "bad_sum"
      else
        let purpose := pyStripL ((get "Purpose").getD [])
        if purpose.isEmpty then some "bad_purpose" else none

/-- Prefix test on character lists (Python `str.startswith`). -/
def leadsWith : List Char → List Char → Bool
  | [], _ => true
  | _ :: _, [] => false
  | p :: ps, c :: cs => p = c && leadsWith ps cs

/-- Substring test on character lists (Python `in` on strings). -/
def hasSubL (pat : List Char) : List Char → Bool
  | [] => pat.isEmpty
  | c :: rest => leadsWith pat (c :: rest) || hasSubL pat rest

/-- Python `str.upper()` restricted to the alphabets this pipeline sees:
ASCII letters and Cyrillic (а-я and ё). -/
def pyUpperChar (c : Char) : Char :=
  if 'a' ≤ c ∧ c ≤ 'z' then Char.ofNat (c.toNat - 32)
  else if 'а' ≤ c ∧ c ≤ 'я' then Char.ofNat (c.toNat - 32)
  else if c = 'ё' then 'Ё' else c

/-- The web pipeline's dataclass `InvoiceFields` (main_web_v2.py lines
75-85): eight strings plus the amount in kopecks.  `Sum` is non-negative
by construction (`money_to_kop` only produces non-negative values), so it
is modelled as `Nat`. -/
structure InvoiceFields where
  Name : String := ""
  PersonalAcc : String := ""
  BankName : String := ""
  BIC : String := ""
  CorrespAcc : String := ""
  PayeeINN : String := ""
  KPP : String := ""
  Sum : Nat := 0
  Purpose : String := ""
deriving DecidableEq, Repr

/-- Value cleaning inside `InvoiceFields.to_st00012.add` (main_web_v2.py
lines 90-94): replace `|`, newline and carriage return by spaces, then
strip. -/
def webCleanVal (s : String) : String :=
  (pyStripL (s.toList.map (fun c =>
    if c = '|' ∨ c = '\n' ∨ c = '\r' then ' ' else c))).asString

/-- The `add(k, v)` helper of `to_st00012`: appends `k=cleaned v` only for
truthy `v`. -/
def webAdd (k v : String) : List String :=
  if v ≠ "" then [k ++ "=" ++ webCleanVal v] else []

/-- `InvoiceFields.to_st00012` (main_web_v2.py lines 87-105): key order
Name, PersonalAcc, BankName, BIC, CorrespAcc, PayeeINN, KPP, Sum (only when
positive), Purpose (defaulting to "Без НДС"). -/
def toST00012 (f : InvoiceFields) : String :=
  String.intercalate "|"
    (["ST00012"]
     ++ webAdd "Name" f.Name
     ++ webAdd "PersonalAcc" f.PersonalAcc
     ++ webAdd "BankName" f.BankName
     ++ webAdd "BIC" f.BIC
     ++ webAdd "CorrespAcc" f.CorrespAcc
     ++ webAdd "PayeeINN" f.PayeeINN
     ++ webAdd "KPP" f.KPP
     ++ (if f.Sum ≠ 0 ∧ f.Sum > 0 then webAdd "Sum" (toString f.Sum) else [])
     ++ webAdd "Purpose" (if f.Purpose = "" then "Без НДС" else f.Purpose))

/-- Removal of the substring "руб" (Python `m.replace("руб", "")`,
left-to-right, non-overlapping). -/
def removeRub : List Char → List Char
  | 'р' :: 'у' :: 'б' :: rest => removeRub rest
  | c :: rest => c :: removeRub rest
  | [] => []

/-- First-occurrence split, Python `m.split(sep, 1)` for a one-character
separator that is known to occur. -/
def splitOnce (sep : Char) (l : List Char) : List Char × List Char :=
  (l.takeWhile (fun c => c ≠ sep), (l.dropWhile (fun c => c ≠ sep)).tail)

/-- Right-pad a character list to length two with '0'
(Python `.ljust(2, "0")` after `[:2]`). -/
def ljust2 (l : List Char) : List Char :=
  if l.length = 0 then ['0', '0'] else if l.length = 1 then l ++ ['0'] else l

/-- `money_to_kop` (main_web_v2.py lines 269-283): strip spaces, NBSP,
"руб" and "₽", split on the first "," (else "."), keep digits of each part,
truncate/pad the kopeck part to two digits, combine as rub*100+kop. -/
def moneyToKop (m : String) : Nat :=
  let m1 := (m.toList.filter (fun c => c ≠ ' ')).filter (fun c => c ≠ '\u00A0')
  let m2 := (removeRub m1).filter (fun c => c ≠ '₽')
  let m3 := pyStripL m2
  let p : List Char × List Char :=
    if m3.contains ',' then splitOnce ',' m3
    else if m3.contains '.' then splitOnce '.' m3
    else (m3, ['0', '0'])
  let rub := digitsOnlyL p.1
  let kop := ljust2 ((digitsOnlyL p.2).take 2)
  let rub' := if rub.isEmpty then ['0'] else rub
  natOfDigits rub' * 100 + natOfDigits kop

/-- The record-construction phase of `extract_fields_from_text`
(main_web_v2.py lines 252-319).  The regular-expression matching phase
(lines 243-263) is abstracted as inputs: each argument is the captured
group of the corresponding regex (`none` when the regex did not match),
exactly as the construction code consumes them.  Lines 269-283
(`money_to_kop`) and 285-319 are embedded directly: the purpose default
chain, the VAT marking, and the `Name` field which line 309 sets to
`default_name` unconditionally. -/
def extractFieldsFromMatches (defaultName : String)
    (rs ks bic inn kpp bank : Option String)
    (sumM purposeM numM dtM vatPct : Option String) : InvoiceFields :=
  let purpose0 : Option String := purposeM.map (fun p =>
    (pyStripL (((pyStripL p.toList).takeWhile (fun c => c ≠ '\n')))).asString)
  let Sum := match sumM with
    | some m => moneyToKop m
    | none => 0
  let purpose1 := match purpose0 with
    | some p => p
    | none =>
      match numM, dtM with
      | some n, some d => "Оплата по счёту №" ++ n ++ " от " ++ d
      | some n, none => "Оплата по счёту №" ++ n
      | none, _ => "Оплата по счёту"
  let purpose2 := match vatPct with
    | some pct => purpose1 ++ "; НДС " ++ pct ++ "%"
    | none =>
      if !hasSubL "НДС".toList (purpose1.toList.map pyUpperChar) then
        purpose1 ++ "; Без НДС"
      else purpose1
  { Name := defaultName
    PersonalAcc := rs.getD ""
    BankName := (bank.map (fun b => (pyStripL b.toList).asString)).getD ""
    BIC := bic.getD ""
    CorrespAcc := ks.getD ""
    PayeeINN := inn.getD ""
    KPP := kpp.getD ""
    Sum := Sum
    Purpose := (pyStripL purpose2.toList).asString }

/-- The required-data guard of `process_document` (main_web_v2.py lines
373-377): only `PersonalAcc`, `BIC`, `PayeeINN` and `Sum` are checked for
truthiness before the QR is built and sent. -/
def webMissing (f : InvoiceFields) : List String :=
  (if f.PersonalAcc = "" then ["PersonalAcc"] else [])
  ++ (if f.BIC = "" then ["BIC"] else [])
  ++ (if f.PayeeINN = "" then ["PayeeINN"] else [])
  ++ (if f.Sum = 0 then ["Sum"] else [])

/-- Characters kept by `re.sub(r"[^\d,\.]", "", ...)` in the Sum-rebuild
step of `on_approved_send_qr` (processor.py line 545). -/
def sumKeepChar (c : Char) : Bool :=
  c.isDigit || c = ',' || c = '.'

/-- Python `float()` on a string of digits and dots, modelled as the EXACT
scaled integer `(mantissa, scale)` with value `mantissa / 10^scale`: valid
when the string has at most one dot and at least one digit.  The argument
in this pipeline is always the output of `re.sub(r"[^\d,\.]", ...)`
followed by `,`→`.`, so only digits and dots occur.

Fidelity envelope: CPython's `float()` rounds to the nearest 53-bit IEEE
double, and the subsequent `*100` rounds once more, so the exact model
agrees with `round(float(s) * 100)` only while the target kopeck value `N`
keeps the accumulated relative error `≈ N * 2^-52` below the half-unit
needed for `round` to recover `N`: for a whole part of at most 13 digits,
`N ≤ 10^15 + 99 < 2^51` and the absolute error stays below `0.23 < 1/2`,
so the double computation returns exactly `N`.  Beyond that the model and
CPython diverge (e.g. `round(float("4503599627370497.00") * 100)` is
`450359962737049728`, not the exact `450359962737049700`), so every
theorem that uses the exact formula carries an explicit magnitude
hypothesis confining it to the provably faithful range. -/
def floatOfClean (l : List Char) : Option (Nat × Nat) :=
  match splitSepC '.' l with
  | [a] => if !a.isEmpty && a.all Char.isDigit then some (natOfDigits a, 0) else none
  | [a, b] =>
    if !(a ++ b).isEmpty && (a ++ b).all Char.isDigit then
      some (natOfDigits a * 10 ^ b.length + natOfDigits b, b.length)
    else none
  | _ => none

/-- Python `round()` of the non-negative rational `n / d` to an integer:
round-half-to-even. -/
def roundHalfEven (n d : Nat) : Nat :=
  let f := n / d
  let r := n % d
  if 2 * r < d then f
  else if d < 2 * r then f + 1
  else if f % 2 = 0 then f else f + 1

/-- The Sum-rebuild step of `on_approved_send_qr` (processor.py lines
544-549), applied to a Sum value that is nonempty and not all-digit:
`rub = re.sub(r"[^\d,\.]", "", v).replace(",", ".")`, then
`str(int(round(float(rub) * 100)))`, leaving the value unchanged when
`float()` raises.  The filter admits no sign, so the value is
non-negative.  Inherits `floatOfClean`'s fidelity envelope: the exact
arithmetic here matches CPython's double arithmetic only while the kopeck
result stays below `2^51` (whole part of at most 13 digits); theorems
about decimal inputs carry that bound as a hypothesis. -/
def sumFixStr (v : String) : String :=
  let rub := (v.toList.filter sumKeepChar).map (fun c => if c = ',' then '.' else c)
  match floatOfClean rub with
  | some p => toString (roundHalfEven (p.1 * 100) (10 ^ p.2))
  | none => v

/-- The guarded application of the Sum rebuild: only when the key is
present, truthy and not `str.isdigit()` (processor.py line 544). -/
def fixSum (f : FieldMap) : FieldMap :=
  match f.Sum with
  | some v => if v ≠ "" ∧ ¬ (pyIsdigitL v.toList = true) then { f with Sum := some (sumFixStr v) } else f
  | none => f

/-- `_parse_json` (processor.py lines 412-416): take the substring from
the first "\x7b" to the last "\x7d" (`text.find` / `text.rfind`), `none` when
either brace is missing or the last closer is not after the first opener
(the `ValueError("no JSON object found")` branch). -/
def parseJsonSpanL (l : List Char) : Option (List Char) :=
  match l.findIdx? (fun c => c = '\x7b'), l.reverse.findIdx? (fun c => c = '\x7d') with
  | some s, some j =>
    let e := l.length - 1 - j
    if e ≤ s then none else some ((l.drop s).take (e + 1 - s))
  | _, _ => none

/-- String wrapper for `parseJsonSpanL`. -/
def parseJsonSpan (s : String) : Option String :=
  (parseJsonSpanL s.toList).map List.asString

/-- Modelled from the spec: "extracts the first balanced brace-delimited
substring found".  Depth-counting scan from the first opening brace;
returns the substring through the brace that closes it. -/
def scanBal : List Char → Nat → List Char → Option (List Char)
  | [], _, _ => none
  | c :: rest, d, acc =>
    if c = '\x7b' then scanBal rest (d + 1) (c :: acc)
    else if c = '\x7d' then
      if d = 1 then some (('\x7d' :: acc).reverse)
      else scanBal rest (d - 1) ('\x7d' :: acc)
    else scanBal rest d (c :: acc)

/-- Modelled from the spec: the first balanced brace-delimited substring of
the text, `none` when there is none. -/
def specFirstBalancedBrace (s : String) : Option String :=
  match s.toList.dropWhile (fun c => c ≠ '\x7b') with
  | [] => none
  | rest => (scanBal rest 0 []).map List.asString

/-- Truncation used by `_fields_preview.take` (processor.py line 105):
values longer than 120 characters are cut to 117 plus "...". -/
def truncate120 (v : String) : String :=
  if v.length > 120 then (v.toList.take 117).asString ++ "..." else v

/-- One line of `_fields_preview` for a present key (`v is not None`). -/
def previewLine (title : String) (v : Option String) : List String :=
  match v with
  | some s => [title ++ ": " ++ truncate120 s]
  | none => []

/-- Python `int(str)` (optional strip/sign, then digits), `none` when
`int()` would raise. -/
def pyIntOpt (s : String) : Option Int :=
  let t := pyStripL s.toList
  match t with
  | '-' :: rest => if !rest.isEmpty && rest.all Char.isDigit then some (-(natOfDigits rest : Int)) else none
  | '+' :: rest => if !rest.isEmpty && rest.all Char.isDigit then some (natOfDigits rest : Int) else none
  | _ => if !t.isEmpty && t.all Char.isDigit then some (natOfDigits t : Int) else none

/-- Two-digit zero-padded rendering of a kopeck remainder. -/
def pad2 (k : Nat) : String :=
  if k < 10 then "0" ++ toString k else toString k

/-- Python `f"(v/100):.2f"` for an integer `v` in kopecks: the double
`v/100` has exactly two decimals at these magnitudes, so the formatting is
exact integer division and remainder. -/
def rubFormat (n : Int) : String :=
  (if n < 0 then "-" else "") ++ toString (n.natAbs / 100) ++ "." ++ pad2 (n.natAbs % 100)

/-- The Sum line of `_fields_preview` (processor.py lines 114-119). -/
def sumPreviewLine (v : Option String) : List String :=
  match v with
  | none => []
  | some s =>
    let rub := match pyIntOpt s with
      | some n => rubFormat n
      | none => s
    ["Сумма: " ++ rub ++ " RUB (в копейках: " ++ s ++ ")"]

/-- `_fields_preview` (processor.py lines 99-121): one line per present
key, in the fixed order of the source, joined by newlines. -/
def fieldsPreview (f : FieldMap) : String :=
  String.intercalate "\n"
    (previewLine "Получатель" f.Name
     ++ previewLine "ИНН" f.PayeeINN
     ++ previewLine "КПП" f.KPP
     ++ previewLine "Банк" f.BankName
     ++ previewLine "БИК" f.BIC
     ++ previewLine "Корр. счёт" f.CorrespAcc
     ++ previewLine "Р/счёт" f.PersonalAcc
     ++ sumPreviewLine f.Sum
     ++ previewLine "Назначение" f.Purpose)

/-- One model response as consumed by `on_approved_send_qr`: the `st`
string (empty when the model returned none) and the `fields` dict. -/
structure Attempt where
  st : String
  fields : FieldMap
  notes : String
deriving DecidableEq, Repr

/-- A processed attempt: sanitized fields, possibly rebuilt `st`, and the
validation result. -/
structure PassRes where
  st : String
  fields : FieldMap
  notes : String
  err : Option String
deriving DecidableEq, Repr

/-- The per-attempt processing of `on_approved_send_qr` (processor.py
lines 538-553 and 560-570): sanitize a truthy dict, rebuild `st` (with the
Sum fix) when it is empty or lacks the tag and the dict is truthy, then
validate (an empty `st` is reported as not being ST00012). -/
def processAttempt (a : Attempt) : PassRes :=
  let f1 := if fmTruthy a.fields then sanitizeFields a.fields else a.fields
  let needRebuild := (!leadsWith "ST00012|".toList a.st.toList) && fmTruthy f1
  let f2 := if needRebuild then fixSum f1 else f1
  let st2 := if needRebuild then buildST00012 f2 else a.st
  let err := if st2 = "" then some "payload is not ST00012" else validateST00012 st2
  ⟨st2, f2, a.notes, err⟩

/-- The adoption test of the retry loop (processor.py line 572):
`not err2 or (err2 and st2 and fields2 and len(preview2) > len(preview1))`. -/
def adoptRetry (cur new : PassRes) : Bool :=
  new.err.isNone ||
    (new.err.isSome && !(new.st == "") && fmTruthy new.fields &&
     decide ((fieldsPreview new.fields).length > (fieldsPreview cur.fields).length))

/-- The bounded retry loop of `on_approved_send_qr` (processor.py lines
556-574): while the current result fails and retries remain, process the
next stronger-model response; adopt it (and stop) when the adoption test
passes, otherwise keep the current result.  The list holds one model
response per permitted retry. -/
def retryLoop : Nat → PassRes → List Attempt → PassRes
  | 0, cur, _ => cur
  | Nat.succ n, cur, atts =>
    if cur.err = none then cur
    else
      match atts with
      | [] => cur
      | a :: rest =>
        let new := processAttempt a
        if adoptRetry cur new then new else retryLoop n cur rest

/-- The retry-configured pipeline (processor.py lines 536-574): the first
attempt is processed, and retries run only when the retry model differs
from the base model, at most `maxRetry` times (`MAX_RETRY_ON_FAIL`,
default 1). -/
def runPipeline (gptModel retryModel : String) (maxRetry : Nat)
    (first : Attempt) (retries : List Attempt) : PassRes :=
  retryLoop (if gptModel ≠ retryModel then maxRetry else 0)
    (processAttempt first) retries

/-- The fixed fallback payload of `on_approved_send_qr` (processor.py line
598), rasterized and sent whenever no valid QR could be built. -/
def demoPayload : String :=
  "ST00012|Name=ERROR|PersonalAcc=00000000000000000000|BankName=ERROR|BIC=000000000|CorrespAcc=00000000000000000000|Sum=0|Purpose=Parse failed"

/-- The error code of the final result (processor.py line 553):
`_validate_st00012(st) if st else "payload is not ST00012"`. -/
def finalErrCode (st : String) : Option String :=
  if st = "" then some "payload is not ST00012" else validateST00012 st

/-- The payload that `on_approved_send_qr` rasterizes into a QR and sends
(processor.py lines 576-611): the record's own `st` only when validation
passed and `st` and `fields` are truthy, otherwise the fixed demo payload
of the fallback message. -/
def sentPayload (st : String) (f : FieldMap) : String :=
  if finalErrCode st = none ∧ st ≠ "" ∧ fmTruthy f = true then st else demoPayload

/-- Decoding of an encoded string into the recognized keys, as performed by
the parsing phase of `_validate_st00012` (the only decoder in the
repository): a key is present when some `key=value` segment bound it, and
the last binding wins. -/
def decodeFM (st : String) : FieldMap :=
  let e := entriesOf st.toList
  { Name := (pyDictGet e "Name".toList).map List.asString
    PersonalAcc := (pyDictGet e "PersonalAcc".toList).map List.asString
    BankName := (pyDictGet e "BankName".toList).map List.asString
    BIC := (pyDictGet e "BIC".toList).map List.asString
    CorrespAcc := (pyDictGet e "CorrespAcc".toList).map List.asString
    Sum := (pyDictGet e "Sum".toList).map List.asString
    Purpose := (pyDictGet e "Purpose".toList).map List.asString
    PayeeINN := (pyDictGet e "PayeeINN".toList).map List.asString
    KPP := (pyDictGet e "KPP".toList).map List.asString
    extras := [] }

/-- Spec-side measure: the number of non-empty recognized fields
("the larger set of non-empty recognized fields" of §4.6). -/
def nonEmptyFieldCount (f : FieldMap) : Nat :=
  [f.Name, f.PersonalAcc, f.BankName, f.BIC, f.CorrespAcc, f.Sum, f.Purpose,
   f.PayeeINN, f.KPP].countP (fun o => o.isSome && !(o.getD "" == ""))

/-- All present values of the field map are free of the pipe separator. -/
def pipeFreeFM (f : FieldMap) : Bool :=
  [f.Name, f.PersonalAcc, f.BankName, f.BIC, f.CorrespAcc, f.Sum, f.Purpose,
   f.PayeeINN, f.KPP].all (fun o => !(o.getD "").toList.contains '|')

/-- The optional keys are absent or nonempty (an empty-but-present optional
key is dropped by the builder and hence cannot round-trip). -/
def optionalOk (f : FieldMap) : Bool :=
  !(f.PayeeINN == some "") && !(f.KPP == some "")

/-- The value of `fields.get(k, '')` on a `FieldMap`, per recognized key. -/
def fmGetD (f : FieldMap) (k : String) : String :=
  match k with
  | "Name" => f.Name.getD ""
  | "PersonalAcc" => f.PersonalAcc.getD ""
  | "BankName" => f.BankName.getD ""
  | "BIC" => f.BIC.getD ""
  | "CorrespAcc" => f.CorrespAcc.getD ""
  | "Sum" => f.Sum.getD ""
  | "Purpose" => f.Purpose.getD ""
  | "PayeeINN" => f.PayeeINN.getD ""
  | "KPP" => f.KPP.getD ""
  | _ => ""

/-- The action of `_validate_st00012` on a string rebuilt from a pipe-free
field map, expressed directly on the record: the required-key, digit-length,
amount and purpose checks of the validator applied to the record's own
values (proved equal to the validator on the rebuilt string in
`validate_build_eq`). -/
def validateFM (f : FieldMap) : Option String :=
  let missing := ST00012_REQUIRED.filter (fun k => (pyStripL (fmGetD f k).toList).isEmpty)
  if !missing.isEmpty then
    some ("missing:" ++ String.intercalate "," missing)
  else
    let bic := digitsOnlyL (fmGetD f "BIC").toList
    let pa := digitsOnlyL (fmGetD f "PersonalAcc").toList
    let ca := digitsOnlyL (fmGetD f "CorrespAcc").toList
    let s := digitsOnlyL (fmGetD f "Sum").toList
    if bic.length ≠ 9 then some "bad_bic"
    else if pa.length ≠ 20 then some "bad_personal"
    else if ca.length ≠ 20 then some "bad_corresp"
    else if !pyIsdigitL s || natOfDigits s ≤ 0 then some "bad_sum"
    else
      let purpose := pyStripL (fmGetD f "Purpose").toList
      if purpose.isEmpty then some "bad_purpose" else none

/-- Concrete first-attempt response used to exercise the retry loop: two
recognized fields with short values. -/
def retryAttemptA : Attempt :=
  ⟨"ST00012|Name=Альфа|BIC=044525225",
   { Name := some "Альфа", BIC := some "044525225" }, ""⟩

/-- A long purpose string (77 characters, already whitespace-normal). -/
def longPurpose : String :=
  "Оплата по счёту номер 12345 от 01.01.2024 за консультационные услуги без НДС"

/-- Concrete retry-attempt response: a single recognized field whose value
is long, so its preview string is longer than attempt A's. -/
def retryAttemptB : Attempt :=
  ⟨"ST00012|Purpose=" ++ longPurpose, { Purpose := some longPurpose }, ""⟩

/-- A field map that validates cleanly but whose Name value contains the
segment separator. -/
def recPipe : FieldMap :=
  { Name := some "A|B", PersonalAcc := some "12345678901234567890",
    BankName := some "B", BIC := some "044525225",
    CorrespAcc := some "30101810400000000225", Sum := some "179500",
    Purpose := some "Оплата" }

/-- The web extractor's record for an invoice text where the payee name is
nowhere in the input: account, correspondent account, BIC, INN and total
found, no explicit name, purpose, invoice number, date or VAT. -/
def webAutoFields : InvoiceFields :=
  extractFieldsFromMatches "Получатель"
    (some "40702810400000012345") (some "30101810400000000225")
    (some "044525225") (some "7707083893") none none
    (some "1 795,00") none none none none

/-- A pipe-free field map that the validator accepts. -/
def recGood : FieldMap :=
  { Name := some "X", PersonalAcc := some "12345678901234567890",
    BankName := some "B", BIC := some "044525225",
    CorrespAcc := some "30101810400000000225", Sum := some "179500",
    Purpose := some "Оплата" }

/-- Auxiliary predicate for reasoning about whitespace collapsing: no two
adjacent whitespace characters. -/
def noAdjWs : List Char → Bool
  | [] => true
  | [_] => true
  | c :: d :: rest => !(isWs c && isWs d) && noAdjWs (d :: rest)

/-! ## Helper lemmas: splitting, parsing, dictionary lookup -/

theorem splitSepC_ne_nil (sep : Char) (l : List Char) : splitSepC sep l ≠ [] := by
  cases l with
  | nil => simp [splitSepC]
  | cons c cs =>
    rcases h : splitSepC sep cs with _ | ⟨t, ts⟩
    · simp [splitSepC, h]
    · simp only [splitSepC, h]
      split <;> simp

theorem splitSepC_cons (sep c : Char) (cs t : List Char) (ts : List (List Char))
    (h : splitSepC sep cs = t :: ts) :
    splitSepC sep (c :: cs) = if c = sep then [] :: t :: ts else (c :: t) :: ts := by
  simp [splitSepC, h]

theorem splitSepC_exists_cons (sep : Char) (l : List Char) :
    ∃ t ts, splitSepC sep l = t :: ts := by
  rcases h : splitSepC sep l with _ | ⟨t, ts⟩
  · exact absurd h (splitSepC_ne_nil sep l)
  · exact ⟨t, ts, rfl⟩

theorem splitSepC_append_sep (sep : Char) (a b : List Char) :
    splitSepC sep (a ++ sep :: b) = splitSepC sep a ++ splitSepC sep b := by
  induction a with
  | nil =>
    obtain ⟨t, ts, hb⟩ := splitSepC_exists_cons sep b
    rw [List.nil_append, splitSepC_cons sep sep b t ts hb]
    simp [splitSepC, hb]
  | cons c a ih =>
    obtain ⟨t, ts, ha⟩ := splitSepC_exists_cons sep a
    obtain ⟨u, us, hab⟩ := splitSepC_exists_cons sep (a ++ sep :: b)
    have hmid : splitSepC sep (a ++ sep :: b) = t :: (ts ++ splitSepC sep b) := by
      rw [ih, ha]; rfl
    rw [List.cons_append, splitSepC_cons sep c _ _ _ hmid,
        splitSepC_cons sep c a t ts ha]
    by_cases hc : c = sep <;> simp [hc]

theorem splitSepC_not_mem {sep : Char} {l : List Char} (h : sep ∉ l) :
    splitSepC sep l = [l] := by
  induction l with
  | nil => rfl
  | cons c cs ih =>
    have hc : c ≠ sep := fun he => h (he ▸ List.mem_cons_self c cs)
    have hcs : sep ∉ cs := fun hm => h (List.mem_cons_of_mem c hm)
    rw [splitSepC_cons sep c cs cs [] (ih hcs)]
    simp [hc]

theorem splitSepC_append_left {sep : Char} {a : List Char} (b : List Char)
    (h : sep ∉ a) :
    ∃ t ts, splitSepC sep b = t :: ts ∧ splitSepC sep (a ++ b) = (a ++ t) :: ts := by
  induction a with
  | nil =>
    obtain ⟨t, ts, hb⟩ := splitSepC_exists_cons sep b
    exact ⟨t, ts, hb, by simpa using hb⟩
  | cons c a ih =>
    have hc : c ≠ sep := fun he => h (he ▸ List.mem_cons_self c a)
    have ha : sep ∉ a := fun hm => h (List.mem_cons_of_mem c hm)
    obtain ⟨t, ts, hb, hab⟩ := ih ha
    refine ⟨t, ts, hb, ?_⟩
    rw [List.cons_append, splitSepC_cons sep c _ _ _ hab]
    simp [hc]

theorem split_joinPipe (p : List Char) (ps : List (List Char)) :
    splitSepC '|' (joinPipe (p :: ps)) = ((p :: ps).map (splitSepC '|')).flatten := by
  induction ps generalizing p with
  | nil => simp [joinPipe]
  | cons q qs ih =>
    simp only [joinPipe, splitSepC_append_sep, ih q]
    simp

theorem flatten_map_singleton {ps : List (List Char)}
    (h : ∀ p ∈ ps, splitSepC '|' p = [p]) :
    (ps.map (splitSepC '|')).flatten = ps := by
  induction ps with
  | nil => rfl
  | cons p ps ih =>
    simp only [List.map_cons, List.flatten_cons, h p (List.mem_cons_self p ps)]
    simp only [List.singleton_append, List.cons_inj_right]
    exact ih (fun q hq => h q (List.mem_cons_of_mem p hq))

theorem takeWhile_stops {α} (p : α → Bool) (k v : List α) (x : α)
    (hk : ∀ c ∈ k, p c = true) (hx : p x = false) :
    (k ++ x :: v).takeWhile p = k := by
  induction k with
  | nil => simp [List.takeWhile_cons, hx]
  | cons c cs ih =>
    have hc := hk c (List.mem_cons_self c cs)
    rw [List.cons_append, List.takeWhile_cons]
    simp only [hc, if_true]
    rw [ih (fun c hm => hk c (List.mem_cons_of_mem _ hm))]

theorem dropWhile_stops {α} (p : α → Bool) (k v : List α) (x : α)
    (hk : ∀ c ∈ k, p c = true) (hx : p x = false) :
    (k ++ x :: v).dropWhile p = x :: v := by
  induction k with
  | nil => simp [List.dropWhile_cons, hx]
  | cons c cs ih =>
    have hc := hk c (List.mem_cons_self c cs)
    rw [List.cons_append, List.dropWhile_cons]
    simp only [hc, if_true]
    exact ih (fun c hm => hk c (List.mem_cons_of_mem _ hm))

theorem kvOf_entry {k : List Char} (v : List Char) (hk : '=' ∉ k) :
    kvOf (k ++ '=' :: v) = some (k, v) := by
  have hmem : (k ++ '=' :: v).contains '=' = true := by simp
  have hall : ∀ c ∈ k, (decide (c ≠ '=')) = true := by
    intro c hc
    simp only [decide_eq_true_eq]
    exact fun he => hk (he ▸ hc)
  have hstop : (decide (('=' : Char) ≠ '=')) = false := by simp
  rw [kvOf, if_pos hmem,
      takeWhile_stops (fun c => decide (c ≠ '=')) k v '=' hall hstop,
      dropWhile_stops (fun c => decide (c ≠ '=')) k v '=' hall hstop]
  rfl

theorem pyDictGet_append (l1 l2 : List (List Char × List Char)) (k : List Char) :
    pyDictGet (l1 ++ l2) k = (pyDictGet l2 k).or (pyDictGet l1 k) := by
  simp only [pyDictGet, List.reverse_append, List.find?_append]
  cases List.find? (fun e => e.1 == k) l2.reverse <;> simp

theorem pyDictGet_singleton (k' v k : List Char) :
    pyDictGet [(k', v)] k = if (k' == k) = true then some v else none := by
  simp only [pyDictGet, List.reverse_singleton, List.find?_singleton]
  split <;> simp_all

theorem pyDictGet_isSome_of_mem {entries : List (List Char × List Char)}
    {k v : List Char} (h : (k, v) ∈ entries) :
    (pyDictGet entries k).isSome = true := by
  have hs : (List.find? (fun e => e.1 == k) entries.reverse).isSome = true :=
    List.find?_isSome.mpr ⟨(k, v), List.mem_reverse.mpr h, by simp⟩
  rcases hf : List.find? (fun e => e.1 == k) entries.reverse with _ | e
  · rw [hf] at hs; simp at hs
  · simp [pyDictGet, hf]

theorem string_head_ne {a b : String} (ca cb : Char)
    (ha : a.toList.head? = some ca) (hb : b.toList.head? = some cb)
    (hne : ca ≠ cb) : a ≠ b := by
  intro heq
  rw [heq, hb] at ha
  exact hne (Option.some.inj ha).symm

theorem missing_head (m : String) :
    ("missing:" ++ m).toList.head? = some 'm' := by
  have h : ("missing:" ++ m).toList = "missing:".toList ++ m.toList :=
    String.data_append _ _
  rw [h]
  rfl

theorem missing_ne_malformed (m : String) :
    "missing:" ++ m ≠ "failed to parse key=value pairs" :=
  string_head_ne 'm' 'f' (missing_head m) rfl (by decide)

theorem missing_ne_payload (m : String) :
    "missing:" ++ m ≠ "payload is not ST00012" :=
  string_head_ne 'm' 'p' (missing_head m) rfl (by decide)

theorem validate_of_tagged (st : String)
    (h : "ST00012|".toList.isPrefixOf st.toList = true) :
    validateST00012 st = none ∨
    (∃ m, validateST00012 st = some ("missing:" ++ m)) ∨
    validateST00012 st = some "bad_bic" ∨
    validateST00012 st = some "bad_personal" ∨
    validateST00012 st = some "bad_corresp" ∨
    validateST00012 st = some "bad_sum" ∨
    validateST00012 st = some "bad_purpose" := by
  unfold validateST00012
  simp only [h, Bool.not_true, Bool.false_eq_true, if_false]
  split
  · exact Or.inr (Or.inl ⟨_, rfl⟩)
  · split
    · exact Or.inr (Or.inr (Or.inl rfl))
    · split
      · exact Or.inr (Or.inr (Or.inr (Or.inl rfl)))
      · split
        · exact Or.inr (Or.inr (Or.inr (Or.inr (Or.inl rfl))))
        · split
          · exact Or.inr (Or.inr (Or.inr (Or.inr (Or.inr (Or.inl rfl)))))
          · split
            · exact Or.inr (Or.inr (Or.inr (Or.inr (Or.inr (Or.inr rfl)))))
            · exact Or.inl rfl

theorem validate_shape (st : String) :
    validateST00012 st = none ∨
    validateST00012 st = some "payload is not ST00012" ∨
    (∃ m, validateST00012 st = some ("missing:" ++ m)) ∨
    validateST00012 st = some "bad_bic" ∨
    validateST00012 st = some "bad_personal" ∨
    validateST00012 st = some "bad_corresp" ∨
    validateST00012 st = some "bad_sum" ∨
    validateST00012 st = some "bad_purpose" := by
  by_cases h : "ST00012|".toList.isPrefixOf st.toList = true
  · rcases validate_of_tagged st h with h1 | h1 | h1 | h1 | h1 | h1 | h1
    · exact Or.inl h1
    · exact Or.inr (Or.inr (Or.inl h1))
    · exact Or.inr (Or.inr (Or.inr (Or.inl h1)))
    · exact Or.inr (Or.inr (Or.inr (Or.inr (Or.inl h1))))
    · exact Or.inr (Or.inr (Or.inr (Or.inr (Or.inr (Or.inl h1)))))
    · exact Or.inr (Or.inr (Or.inr (Or.inr (Or.inr (Or.inr (Or.inl h1))))))
    · exact Or.inr (Or.inr (Or.inr (Or.inr (Or.inr (Or.inr (Or.inr h1))))))
  · refine Or.inr (Or.inl ?_)
    unfold validateST00012
    rw [Bool.not_eq_true] at h
    simp only [h, Bool.not_false, if_true]

theorem build_toList (f : FieldMap) :
    (buildST00012 f).toList = "ST00012|".toList ++ joinPipe (buildPartsL f) := rfl

theorem build_tagged (f : FieldMap) :
    "ST00012|".toList.isPrefixOf (buildST00012 f).toList = true := by
  rw [List.isPrefixOf_iff_prefix, build_toList]
  exact List.prefix_append _ _

theorem buildParts_ne_nil (f : FieldMap) : buildPartsL f ≠ [] := by
  simp [buildPartsL]

theorem build_segments (f : FieldMap) :
    splitSepC '|' (buildST00012 f).toList =
      ["ST00012".toList] ++ ((buildPartsL f).map (splitSepC '|')).flatten := by
  have h1 : (buildST00012 f).toList =
      "ST00012".toList ++ '|' :: joinPipe (buildPartsL f) := rfl
  rw [h1, splitSepC_append_sep, splitSepC_not_mem (by decide)]
  rcases hp : buildPartsL f with _ | ⟨p, ps⟩
  · exact absurd hp (buildParts_ne_nil f)
  · rw [split_joinPipe]

theorem build_key_present (f : FieldMap) (kL vL : List Char)
    (hkEq : '=' ∉ kL) (hkPipe : '|' ∉ kL)
    (hmem : (kL ++ '=' :: vL) ∈ buildPartsL f) :
    (pyDictGet (entriesOf (buildST00012 f).toList) kL).isSome = true := by
  have hpipe : '|' ∉ kL ++ ['='] := by
    intro hc
    rcases List.mem_append.mp hc with hc | hc
    · exact hkPipe hc
    · simp at hc
  obtain ⟨t, ts, hv, hsplit⟩ := @splitSepC_append_left '|' (kL ++ ['=']) vL hpipe
  have hform : (kL ++ ['=']) ++ vL = kL ++ '=' :: vL := by simp
  rw [hform] at hsplit
  have hseg : (kL ++ '=' :: t) ∈ ((buildPartsL f).map (splitSepC '|')).flatten := by
    rw [List.mem_flatten]
    refine ⟨splitSepC '|' (kL ++ '=' :: vL), List.mem_map_of_mem _ hmem, ?_⟩
    rw [hsplit]
    have : (kL ++ ['=']) ++ t = kL ++ '=' :: t := by simp
    rw [this]
    exact List.mem_cons_self _ _
  have hentry : (kL, t) ∈ entriesOf (buildST00012 f).toList := by
    rw [entriesOf, build_segments]
    simp only [List.singleton_append, List.tail_cons]
    exact List.mem_filterMap.mpr ⟨kL ++ '=' :: t, hseg, kvOf_entry t hkEq⟩
  exact pyDictGet_isSome_of_mem hentry

theorem build_name_present (f : FieldMap) :
    (pyDictGet (entriesOf (buildST00012 f).toList) "Name".toList).isSome = true := by
  refine build_key_present f "Name".toList ((f.Name.getD "").toList)
    (by decide) (by decide) ?_
  rw [show "Name".toList ++ '=' :: (f.Name.getD "").toList
      = ("Name=" ++ f.Name.getD "").toList from rfl]
  simp [buildPartsL]

theorem build_pa_present (f : FieldMap) :
    (pyDictGet (entriesOf (buildST00012 f).toList) "PersonalAcc".toList).isSome = true := by
  refine build_key_present f "PersonalAcc".toList ((f.PersonalAcc.getD "").toList)
    (by decide) (by decide) ?_
  rw [show "PersonalAcc".toList ++ '=' :: (f.PersonalAcc.getD "").toList
      = ("PersonalAcc=" ++ f.PersonalAcc.getD "").toList from rfl]
  simp [buildPartsL]

theorem build_bank_present (f : FieldMap) :
    (pyDictGet (entriesOf (buildST00012 f).toList) "BankName".toList).isSome = true := by
  refine build_key_present f "BankName".toList ((f.BankName.getD "").toList)
    (by decide) (by decide) ?_
  rw [show "BankName".toList ++ '=' :: (f.BankName.getD "").toList
      = ("BankName=" ++ f.BankName.getD "").toList from rfl]
  simp [buildPartsL]

theorem build_bic_present (f : FieldMap) :
    (pyDictGet (entriesOf (buildST00012 f).toList) "BIC".toList).isSome = true := by
  refine build_key_present f "BIC".toList ((f.BIC.getD "").toList)
    (by decide) (by decide) ?_
  rw [show "BIC".toList ++ '=' :: (f.BIC.getD "").toList
      = ("BIC=" ++ f.BIC.getD "").toList from rfl]
  simp [buildPartsL]

theorem build_ca_present (f : FieldMap) :
    (pyDictGet (entriesOf (buildST00012 f).toList) "CorrespAcc".toList).isSome = true := by
  refine build_key_present f "CorrespAcc".toList ((f.CorrespAcc.getD "").toList)
    (by decide) (by decide) ?_
  rw [show "CorrespAcc".toList ++ '=' :: (f.CorrespAcc.getD "").toList
      = ("CorrespAcc=" ++ f.CorrespAcc.getD "").toList from rfl]
  simp [buildPartsL]

theorem build_sum_present (f : FieldMap) :
    (pyDictGet (entriesOf (buildST00012 f).toList) "Sum".toList).isSome = true := by
  refine build_key_present f "Sum".toList ((f.Sum.getD "").toList)
    (by decide) (by decide) ?_
  rw [show "Sum".toList ++ '=' :: (f.Sum.getD "").toList
      = ("Sum=" ++ f.Sum.getD "").toList from rfl]
  simp [buildPartsL]

theorem build_purpose_present (f : FieldMap) :
    (pyDictGet (entriesOf (buildST00012 f).toList) "Purpose".toList).isSome = true := by
  refine build_key_present f "Purpose".toList ((f.Purpose.getD "").toList)
    (by decide) (by decide) ?_
  rw [show "Purpose".toList ++ '=' :: (f.Purpose.getD "").toList
      = ("Purpose=" ++ f.Purpose.getD "").toList from rfl]
  simp [buildPartsL]

/-- C10: for every field map, even an empty or incomplete one, the payment
string rebuilt by `_build_st00012_from_fields` begins with the tag
`ST00012|` and carries a parsed segment for each of the seven required
keys, so running `_validate_st00012` on a rebuilt string never returns the
not-recognized-format reason (nor the malformed-fields reason): any
rejection is a missing-fields, digit-length, amount or purpose reason. -/
theorem C10_rebuilt_string_tagged_and_complete (f : FieldMap) :
    "ST00012|".toList.isPrefixOf (buildST00012 f).toList = true ∧
    (ST00012_REQUIRED.all (fun k =>
      (pyDictGet (entriesOf (buildST00012 f).toList) k.toList).isSome)) = true ∧
    (validateST00012 (buildST00012 f) = none ∨
     (∃ m, validateST00012 (buildST00012 f) = some ("missing:" ++ m)) ∨
     validateST00012 (buildST00012 f) = some "bad_bic" ∨
     validateST00012 (buildST00012 f) = some "bad_personal" ∨
     validateST00012 (buildST00012 f) = some "bad_corresp" ∨
     validateST00012 (buildST00012 f) = some "bad_sum" ∨
     validateST00012 (buildST00012 f) = some "bad_purpose") := by
  refine ⟨build_tagged f, ?_, validate_of_tagged _ (build_tagged f)⟩
  rw [ST00012_REQUIRED]
  simp only [List.all_cons, List.all_nil, Bool.and_true, Bool.and_eq_true]
  exact ⟨build_name_present f, build_pa_present f, build_bank_present f,
    build_bic_present f, build_ca_present f, build_sum_present f,
    build_purpose_present f⟩

/-- C5 counterexample: the segment `junk` of this ST00012-tagged string has
no `=` separator, yet `_validate_st00012` does not report the malformed
parse failure — it silently skips the segment and accepts the payload. -/
theorem C5_counterexample :
    ("junk".toList ∈ (splitSepC '|' ("ST00012|junk|Name=N|PersonalAcc=12345678901234567890|BankName=B|BIC=044525225|CorrespAcc=30101810400000000225|Sum=10|Purpose=p").toList).tail) ∧
    ("junk".toList.contains '=') = false ∧
    validateST00012 "ST00012|junk|Name=N|PersonalAcc=12345678901234567890|BankName=B|BIC=044525225|CorrespAcc=30101810400000000225|Sum=10|Purpose=p" = none := by
  decide

/-- C5 amended: a segment lacking the `=` separator is silently skipped by
`_validate_st00012` rather than reported: the validator never returns the
malformed-fields reason `failed to parse key=value pairs` on any input
(its guard is unreachable because splitting cannot raise). -/
theorem C5_amended_no_malformed_reason (st : String) :
    validateST00012 st ≠ some "failed to parse key=value pairs" := by
  rcases validate_shape st with h | h | ⟨m, h⟩ | h | h | h | h | h <;> rw [h]
  · simp
  · decide
  · exact fun hx => missing_ne_malformed m (Option.some.inj hx)
  · decide
  · decide
  · decide
  · decide
  · decide

/-- C1 amended: the extracted record's own payment-code string is rasterized
and sent only when `_validate_st00012` passes; whenever the validator
rejects, what is rasterized and sent instead is the fixed placeholder
`demoPayload` of the fallback message, never the record's string. -/
theorem C1_amended_record_string_gated (st : String) (f : FieldMap)
    (h : validateST00012 st ≠ none) :
    sentPayload st f = demoPayload := by
  unfold sentPayload
  rw [if_neg]
  rintro ⟨h1, h2, -⟩
  unfold finalErrCode at h1
  rw [if_neg h2] at h1
  exact h h1

/-- Witness for the C1 amended theorem at a concrete rejected payload. -/
theorem C1_amended_record_string_gated_witness :
    sentPayload "foo" {} = demoPayload :=
  C1_amended_record_string_gated "foo" {} (by decide)

/-- C1 counterexample: the claim says no payment-code string is ever
rasterized and sent for a record the validator rejected; but on this
rejected record the fallback still rasterizes and sends a QR whose payload
is the ST00012-tagged `demoPayload`, which itself fails validation with
`bad_sum`. -/
theorem C1_counterexample :
    (validateST00012 "ST00012|Name=X").isSome = true ∧
    sentPayload "ST00012|Name=X" { Name := some "X" } = demoPayload ∧
    "ST00012|".toList.isPrefixOf demoPayload.toList = true ∧
    validateST00012 demoPayload = some "bad_sum" := by
  decide

/-- C6 counterexample: the claim's decimal rule (minor part truncated to two
digits, negatives and unparseable values becoming zero) does not match the
model-output path: `sumFixStr` rounds "2.999" up to 300 kopecks (truncation
would give 299), strips the sign of "-5,00" to 500 (the claim says zero),
and leaves the unparseable "1,2,3" unchanged (the claim says zero); the
web-side `money_to_kop` likewise turns "-5,00" into +500. -/
theorem C6_counterexample :
    sumFixStr "2.999" = "300" ∧
    sumFixStr "-5,00" = "500" ∧
    sumFixStr "1,2,3" = "1,2,3" ∧
    moneyToKop "-5,00" = 500 := by
  decide

/-- C6 amended: a pure-integer Sum string is trusted unchanged (the rebuild
guard skips it); a decimal string of the form `whole,minor` with a
two-digit minor part and a whole part of at most 13 digits is normalized
to `whole*100 + minor` (for longer minor parts the float multiplication
rounds instead of truncating; signs are stripped by the character filter;
an unparseable value is left unchanged for the validator to judge).  The
13-digit bound keeps the kopeck value below `2^51`, the range on which the
exact arithmetic of `floatOfClean` provably coincides with CPython's
53-bit double computation `round(float(rub) * 100)`. -/
theorem C6_amended_sum_normalization :
    (∀ (f : FieldMap) (s : String), f.Sum = some s →
      pyIsdigitL s.toList = true → fixSum f = f) ∧
    (∀ a b : List Char, a ≠ [] → a.length ≤ 13 →
      a.all Char.isDigit = true →
      b.all Char.isDigit = true → b.length = 2 →
      sumFixStr (a ++ ',' :: b).asString =
        toString (natOfDigits a * 100 + natOfDigits b)) := by
  constructor
  · intro f s hs hdig
    have hcond : ¬ (s ≠ "" ∧ ¬ (pyIsdigitL s.toList = true)) := by
      rintro ⟨-, h2⟩
      exact h2 hdig
    unfold fixSum
    rw [hs]
    simp only [hcond, if_false]
  · intro a b hne _ hada hadb hlen
    have hva : ∀ c ∈ a, c.isDigit = true := fun c hc => List.all_eq_true.mp hada c hc
    have hvb : ∀ c ∈ b, c.isDigit = true := fun c hc => List.all_eq_true.mp hadb c hc
    have hnca : ∀ c ∈ a, c ≠ ',' := by
      intro c hc he
      have := hva c hc
      rw [he] at this
      simp at this
    have htol : ((a ++ ',' :: b).asString).toList = a ++ ',' :: b := rfl
    unfold sumFixStr
    rw [htol]
    have hfilter : (a ++ ',' :: b).filter sumKeepChar = a ++ ',' :: b := by
      rw [List.filter_eq_self]
      intro c hc
      rcases List.mem_append.mp hc with hc | hc
      · simp [sumKeepChar, hva c hc]
      · rcases List.mem_cons.mp hc with hc | hc
        · simp [sumKeepChar, hc]
        · simp [sumKeepChar, hvb c hc]
    rw [hfilter]
    have hmap : (a ++ ',' :: b).map (fun c => if c = ',' then '.' else c)
        = a ++ '.' :: b := by
      rw [List.map_append, List.map_cons]
      have hda : a.map (fun c => if c = ',' then '.' else c) = a := by
        have hcong : ∀ c ∈ a, (if c = ',' then '.' else c) = id c := by
          intro c hc
          simp [hnca c hc]
        rw [List.map_congr_left hcong, List.map_id]
      have hdb : b.map (fun c => if c = ',' then '.' else c) = b := by
        have hncb : ∀ c ∈ b, c ≠ ',' := by
          intro c hc he
          have := hvb c hc
          rw [he] at this
          simp at this
        have hcong : ∀ c ∈ b, (if c = ',' then '.' else c) = id c := by
          intro c hc
          simp [hncb c hc]
        rw [List.map_congr_left hcong, List.map_id]
      rw [hda, hdb]
      simp
    rw [hmap]
    have hdota : ('.' : Char) ∉ a := by
      intro h
      have := hva '.' h
      simp at this
    have hdotb : ('.' : Char) ∉ b := by
      intro h
      have := hvb '.' h
      simp at this
    have hsplit : splitSepC '.' (a ++ '.' :: b) = [a, b] := by
      rw [splitSepC_append_sep, splitSepC_not_mem hdota, splitSepC_not_mem hdotb]
      rfl
    have hcondtrue : (!(a ++ b).isEmpty && (a ++ b).all Char.isDigit) = true := by
      rcases a with _ | ⟨c, cs⟩
      · exact absurd rfl hne
      · simp only [List.cons_append, List.isEmpty_cons, Bool.not_false, Bool.true_and]
        rw [List.all_eq_true]
        intro c hc
        rcases List.mem_cons.mp hc with hc | hc
        · exact hc ▸ hva c (by simp [hc])
        · rcases List.mem_append.mp hc with h2 | h2
          · exact hva _ (List.mem_cons_of_mem _ h2)
          · exact hvb _ h2
    have hfloat : floatOfClean (a ++ '.' :: b)
        = some (natOfDigits a * 10 ^ b.length + natOfDigits b, b.length) := by
      simp only [floatOfClean, hsplit, hcondtrue, if_true]
    simp only [hfloat, hlen]
    have hround : roundHalfEven ((natOfDigits a * 10 ^ 2 + natOfDigits b) * 100) (10 ^ 2)
        = natOfDigits a * 100 + natOfDigits b := by
      unfold roundHalfEven
      have h100 : (10 : Nat) ^ 2 = 100 := by norm_num
      rw [h100, Nat.mul_div_cancel _ (by norm_num), Nat.mul_mod_left]
      norm_num
    rw [hround]

/-- Witness for the C6 amended theorem: "179500" is trusted as already in
kopecks, and "1795,00" normalizes to 1795*100 + 0. -/
theorem C6_amended_sum_normalization_witness :
    fixSum { Sum := some "179500" } = { Sum := some "179500" } ∧
    sumFixStr (['1', '7', '9', '5'] ++ ',' :: ['0', '0']).asString =
      toString (natOfDigits ['1', '7', '9', '5'] * 100 + natOfDigits ['0', '0']) :=
  ⟨C6_amended_sum_normalization.1 _ "179500" rfl (by decide),
   C6_amended_sum_normalization.2 ['1', '7', '9', '5'] ['0', '0']
     (by decide) (by decide) (by decide) (by decide) (by decide)⟩

theorem findIdx?_first {α} (p : α → Bool) (k : List α) (x : α) (rest : List α)
    (hk : ∀ c ∈ k, p c = false) (hx : p x = true) :
    List.findIdx? p (k ++ x :: rest) = some k.length := by
  rw [List.findIdx?_append, List.findIdx?_eq_none_iff.mpr hk, List.findIdx?_cons]
  simp [hx]

/-- C7 counterexample: the parser does not extract the first balanced
brace-delimited substring: on a response holding two JSON objects it spans
from the first opening brace to the LAST closing brace, producing an
unparseable mixture, while the spec's first-balanced extraction returns the
first object. -/
theorem C7_counterexample :
    parseJsonSpan "\x7b\"a\":1\x7d x \x7b\"b\":2\x7d" =
      some "\x7b\"a\":1\x7d x \x7b\"b\":2\x7d" ∧
    specFirstBalancedBrace "\x7b\"a\":1\x7d x \x7b\"b\":2\x7d" =
      some "\x7b\"a\":1\x7d" ∧
    parseJsonSpan "\x7b\"a\":1\x7d x \x7b\"b\":2\x7d" ≠
      specFirstBalancedBrace "\x7b\"a\":1\x7d x \x7b\"b\":2\x7d" := by
  decide

/-- C7 amended: `_parse_json` extracts the substring from the first opening
brace to the last closing brace (no fence stripping, no balance tracking);
when the text has no opening brace the parse fails (the
`no JSON object found` branch). -/
theorem C7_amended_span_first_to_last :
    (∀ a m b : List Char, '\x7b' ∉ a → '\x7d' ∉ b →
      parseJsonSpanL (a ++ '\x7b' :: (m ++ '\x7d' :: b)) =
        some ('\x7b' :: (m ++ ['\x7d']))) ∧
    (∀ l : List Char, '\x7b' ∉ l → parseJsonSpanL l = none) := by
  constructor
  · intro a m b ha hb
    have hka : ∀ c ∈ a, (decide (c = '\x7b')) = false := by
      intro c hc
      simp only [decide_eq_false_iff_not]
      exact fun he => ha (he ▸ hc)
    have hs : List.findIdx? (fun c => decide (c = '\x7b'))
        (a ++ '\x7b' :: (m ++ '\x7d' :: b)) = some a.length :=
      findIdx?_first _ a _ _ hka (by simp)
    have hrev : (a ++ '\x7b' :: (m ++ '\x7d' :: b)).reverse
        = b.reverse ++ '\x7d' :: (m.reverse ++ '\x7b' :: a.reverse) := by
      simp
    have hkb : ∀ c ∈ b.reverse, (decide (c = '\x7d')) = false := by
      intro c hc
      simp only [decide_eq_false_iff_not]
      exact fun he => hb (he ▸ List.mem_reverse.mp hc)
    have hj : List.findIdx? (fun c => decide (c = '\x7d'))
        (a ++ '\x7b' :: (m ++ '\x7d' :: b)).reverse = some b.length := by
      rw [hrev, findIdx?_first _ b.reverse _ _ hkb (by simp), List.length_reverse]
    have hlen : (a ++ '\x7b' :: (m ++ '\x7d' :: b)).length
        = a.length + m.length + b.length + 2 := by
      simp [List.length_append]
      omega
    unfold parseJsonSpanL
    rw [hs, hj]
    dsimp only
    have he : (a ++ '\x7b' :: (m ++ '\x7d' :: b)).length - 1 - b.length
        = a.length + m.length + 1 := by
      rw [hlen]; omega
    rw [he]
    rw [if_neg (by omega)]
    have hdrop : (a ++ '\x7b' :: (m ++ '\x7d' :: b)).drop a.length
        = '\x7b' :: (m ++ '\x7d' :: b) := List.drop_left a _
    rw [hdrop]
    have htn : a.length + m.length + 1 + 1 - a.length = m.length + 1 + 1 := by omega
    rw [htn]
    rw [List.take_succ_cons]
    have htake : (m ++ '\x7d' :: b).take (m.length + 1) = m ++ ['\x7d'] := by
      rw [List.take_append]
      simp
    rw [htake]
  · intro l hl
    have hnone : List.findIdx? (fun c => decide (c = '\x7b')) l = none := by
      rw [List.findIdx?_eq_none_iff]
      intro c hc
      simp only [decide_eq_false_iff_not]
      exact fun he => hl (he ▸ hc)
    unfold parseJsonSpanL
    rw [hnone]

/-- Witness for the C7 amended theorem at a concrete fenced-style response
and at a brace-free response. -/
theorem C7_amended_span_first_to_last_witness :
    parseJsonSpanL ("text ".toList ++ '\x7b' :: ("\"a\":1".toList ++ '\x7d' :: " tail".toList)) =
      some ('\x7b' :: ("\"a\":1".toList ++ ['\x7d'])) ∧
    parseJsonSpanL "no json here".toList = none :=
  ⟨C7_amended_span_first_to_last.1 "text ".toList "\"a\":1".toList " tail".toList
     (by decide) (by decide),
   C7_amended_span_first_to_last.2 "no json here".toList (by decide)⟩

/-- C8 counterexample: with neither attempt validating, the retry loop
adopts the second attempt because its field PREVIEW STRING is longer, even
though its set of non-empty recognized fields is strictly smaller than the
first attempt's — the spec's "larger set of non-empty recognized fields"
tie-break is not what the code implements. -/
theorem C8_counterexample :
    runPipeline "gpt-4o-mini" "gpt-4o" 1 retryAttemptA [retryAttemptB] =
      processAttempt retryAttemptB ∧
    (processAttempt retryAttemptA).err.isSome = true ∧
    (processAttempt retryAttemptB).err.isSome = true ∧
    nonEmptyFieldCount (processAttempt retryAttemptB).fields <
      nonEmptyFieldCount (processAttempt retryAttemptA).fields := by
  decide

/-- C8 amended: with identical base and retry models no retry runs; with the
default budget of one retry, the retry outcome is adopted exactly when it
validates cleanly or when its preview string (not its count of non-empty
fields) is longer while `st` and `fields` are truthy; a cleanly-validating
retry is always adopted; and when both attempts fail the overall outcome
remains a failure. -/
theorem C8_amended_retry_semantics :
    (∀ (g : String) (n : Nat) (first : Attempt) (rs : List Attempt),
      runPipeline g g n first rs = processAttempt first) ∧
    (∀ (cur : PassRes) (a : Attempt), cur.err ≠ none →
      retryLoop 1 cur [a] =
        (if adoptRetry cur (processAttempt a) = true then processAttempt a else cur)) ∧
    (∀ (cur new : PassRes), new.err = none → adoptRetry cur new = true) ∧
    (∀ (cur : PassRes) (a : Attempt), cur.err ≠ none → (processAttempt a).err ≠ none →
      (retryLoop 1 cur [a]).err ≠ none) := by
  refine ⟨?_, ?_, ?_, ?_⟩
  · intro g n first rs
    simp [runPipeline, retryLoop]
  · intro cur a h
    simp only [retryLoop, h, if_false]
  · intro cur new h
    simp [adoptRetry, h]
  · intro cur a h1 h2
    simp only [retryLoop, h1, if_false]
    split
    all_goals first | exact h2 | exact h1

/-- Witness for the C8 amended theorem at the concrete retry attempts. -/
theorem C8_amended_retry_semantics_witness :
    runPipeline "gpt-4o" "gpt-4o" 1 retryAttemptA [retryAttemptB] =
      processAttempt retryAttemptA ∧
    retryLoop 1 (processAttempt retryAttemptA) [retryAttemptB] =
      (if adoptRetry (processAttempt retryAttemptA) (processAttempt retryAttemptB) = true
       then processAttempt retryAttemptB else processAttempt retryAttemptA) :=
  ⟨C8_amended_retry_semantics.1 "gpt-4o" 1 retryAttemptA [retryAttemptB],
   C8_amended_retry_semantics.2.1 (processAttempt retryAttemptA) retryAttemptB (by decide)⟩

theorem contains_false_not_mem {l : List Char} {c : Char}
    (h : l.contains c = false) : c ∉ l := by
  intro hm
  have h2 : l.contains c = true := by simpa using hm
  rw [h2] at h
  cases h

theorem not_mem_strcat {tag v : String} {c : Char}
    (ht : c ∉ tag.toList) (hv : c ∉ v.toList) : c ∉ (tag ++ v).toList := by
  intro hc
  rw [show (tag ++ v).toList = tag.toList ++ v.toList from String.data_append _ _] at hc
  rcases List.mem_append.mp hc with hc | hc
  · exact ht hc
  · exact hv hc

theorem pyDictGet_none_of_not_key {entries : List (List Char × List Char)}
    {k : List Char} (h : ∀ e ∈ entries, e.1 ≠ k) : pyDictGet entries k = none := by
  have hf : List.find? (fun e => e.1 == k) entries.reverse = none := by
    rw [List.find?_eq_none]
    intro e he
    simpa using h e (List.mem_reverse.mp he)
  unfold pyDictGet
  rw [hf]
  rfl

theorem pyDictGet_of_mem_nodup {entries : List (List Char × List Char)}
    {k v : List Char} (hmem : (k, v) ∈ entries)
    (hnd : (entries.map Prod.fst).Nodup) : pyDictGet entries k = some v := by
  induction entries with
  | nil => cases hmem
  | cons e rest ih =>
    have hsplit : pyDictGet (e :: rest) k = (pyDictGet rest k).or (pyDictGet [e] k) :=
      pyDictGet_append [e] rest k
    rcases List.mem_cons.mp hmem with he | hm
    · have hhead : e.1 ∉ rest.map Prod.fst := (List.nodup_cons.mp hnd).1
      have hknot : ∀ e2 ∈ rest, e2.1 ≠ k := by
        intro e2 he2 hk2
        apply hhead
        rw [← he]
        show k ∈ rest.map Prod.fst
        rw [← hk2]
        exact List.mem_map_of_mem Prod.fst he2
      rw [hsplit, pyDictGet_none_of_not_key hknot, ← he, pyDictGet_singleton]
      simp
    · have hnd2 : (rest.map Prod.fst).Nodup := (List.nodup_cons.mp hnd).2
      rw [hsplit, ih hm hnd2]
      rfl

theorem entriesOf_build (f : FieldMap) (hp : pipeFreeFM f = true) :
    entriesOf (buildST00012 f).toList =
      ([("Name".toList, (f.Name.getD "").toList),
        ("PersonalAcc".toList, (f.PersonalAcc.getD "").toList),
        ("BankName".toList, (f.BankName.getD "").toList),
        ("BIC".toList, (f.BIC.getD "").toList),
        ("CorrespAcc".toList, (f.CorrespAcc.getD "").toList),
        ("Sum".toList, (f.Sum.getD "").toList),
        ("Purpose".toList, (f.Purpose.getD "").toList)]
       ++ (if f.PayeeINN.getD "" ≠ "" then
            [("PayeeINN".toList, (f.PayeeINN.getD "").toList)] else []))
      ++ (if f.KPP.getD "" ≠ "" then
            [("KPP".toList, (f.KPP.getD "").toList)] else []) := by
  simp only [pipeFreeFM, List.all_cons, List.all_nil, Bool.and_true, Bool.and_eq_true,
    Bool.not_eq_true'] at hp
  obtain ⟨h1, h2, h3, h4, h5, h6, h7, h8, h9⟩ := hp
  have hsingle : ∀ p ∈ buildPartsL f, splitSepC '|' p = [p] := by
    intro p hmem
    apply splitSepC_not_mem
    rcases List.mem_append.mp hmem with hm | hm
    · rcases List.mem_append.mp hm with hm2 | hm2
      · simp only [List.mem_cons, List.not_mem_nil, or_false] at hm2
        rcases hm2 with h | h | h | h | h | h | h <;> subst h
        · exact not_mem_strcat (by decide) (contains_false_not_mem h1)
        · exact not_mem_strcat (by decide) (contains_false_not_mem h2)
        · exact not_mem_strcat (by decide) (contains_false_not_mem h3)
        · exact not_mem_strcat (by decide) (contains_false_not_mem h4)
        · exact not_mem_strcat (by decide) (contains_false_not_mem h5)
        · exact not_mem_strcat (by decide) (contains_false_not_mem h6)
        · exact not_mem_strcat (by decide) (contains_false_not_mem h7)
      · by_cases hI : f.PayeeINN.getD "" ≠ ""
        · rw [if_pos hI] at hm2
          rw [List.mem_singleton.mp hm2]
          exact not_mem_strcat (by decide) (contains_false_not_mem h8)
        · rw [if_neg hI] at hm2
          cases hm2
    · by_cases hK : f.KPP.getD "" ≠ ""
      · rw [if_pos hK] at hm
        rw [List.mem_singleton.mp hm]
        exact not_mem_strcat (by decide) (contains_false_not_mem h9)
      · rw [if_neg hK] at hm
        cases hm
  have hparts : buildPartsL f =
      ([("Name".toList ++ '=' :: (f.Name.getD "").toList),
        ("PersonalAcc".toList ++ '=' :: (f.PersonalAcc.getD "").toList),
        ("BankName".toList ++ '=' :: (f.BankName.getD "").toList),
        ("BIC".toList ++ '=' :: (f.BIC.getD "").toList),
        ("CorrespAcc".toList ++ '=' :: (f.CorrespAcc.getD "").toList),
        ("Sum".toList ++ '=' :: (f.Sum.getD "").toList),
        ("Purpose".toList ++ '=' :: (f.Purpose.getD "").toList)]
       ++ (if f.PayeeINN.getD "" ≠ "" then
            [("PayeeINN".toList ++ '=' :: (f.PayeeINN.getD "").toList)] else []))
      ++ (if f.KPP.getD "" ≠ "" then
            [("KPP".toList ++ '=' :: (f.KPP.getD "").toList)] else []) := rfl
  have hkvN : kvOf ('N' :: 'a' :: 'm' :: 'e' :: '=' :: (f.Name.getD "").data)
      = some ("Name".toList, (f.Name.getD "").data) :=
    kvOf_entry (k := "Name".toList) ((f.Name.getD "").data) (by decide)
  have hkvPA : kvOf ('P' :: 'e' :: 'r' :: 's' :: 'o' :: 'n' :: 'a' :: 'l' :: 'A' :: 'c' :: 'c' :: '=' :: (f.PersonalAcc.getD "").data)
      = some ("PersonalAcc".toList, (f.PersonalAcc.getD "").data) :=
    kvOf_entry (k := "PersonalAcc".toList) ((f.PersonalAcc.getD "").data) (by decide)
  have hkvBN : kvOf ('B' :: 'a' :: 'n' :: 'k' :: 'N' :: 'a' :: 'm' :: 'e' :: '=' :: (f.BankName.getD "").data)
      = some ("BankName".toList, (f.BankName.getD "").data) :=
    kvOf_entry (k := "BankName".toList) ((f.BankName.getD "").data) (by decide)
  have hkvBIC : kvOf ('B' :: 'I' :: 'C' :: '=' :: (f.BIC.getD "").data)
      = some ("BIC".toList, (f.BIC.getD "").data) :=
    kvOf_entry (k := "BIC".toList) ((f.BIC.getD "").data) (by decide)
  have hkvCA : kvOf ('C' :: 'o' :: 'r' :: 'r' :: 'e' :: 's' :: 'p' :: 'A' :: 'c' :: 'c' :: '=' :: (f.CorrespAcc.getD "").data)
      = some ("CorrespAcc".toList, (f.CorrespAcc.getD "").data) :=
    kvOf_entry (k := "CorrespAcc".toList) ((f.CorrespAcc.getD "").data) (by decide)
  have hkvS : kvOf ('S' :: 'u' :: 'm' :: '=' :: (f.Sum.getD "").data)
      = some ("Sum".toList, (f.Sum.getD "").data) :=
    kvOf_entry (k := "Sum".toList) ((f.Sum.getD "").data) (by decide)
  have hkvP : kvOf ('P' :: 'u' :: 'r' :: 'p' :: 'o' :: 's' :: 'e' :: '=' :: (f.Purpose.getD "").data)
      = some ("Purpose".toList, (f.Purpose.getD "").data) :=
    kvOf_entry (k := "Purpose".toList) ((f.Purpose.getD "").data) (by decide)
  have hkvI : kvOf ('P' :: 'a' :: 'y' :: 'e' :: 'e' :: 'I' :: 'N' :: 'N' :: '=' :: (f.PayeeINN.getD "").data)
      = some ("PayeeINN".toList, (f.PayeeINN.getD "").data) :=
    kvOf_entry (k := "PayeeINN".toList) ((f.PayeeINN.getD "").data) (by decide)
  have hkvK : kvOf ('K' :: 'P' :: 'P' :: '=' :: (f.KPP.getD "").data)
      = some ("KPP".toList, (f.KPP.getD "").data) :=
    kvOf_entry (k := "KPP".toList) ((f.KPP.getD "").data) (by decide)
  rw [entriesOf, build_segments]
  simp only [List.singleton_append, List.tail_cons]
  rw [flatten_map_singleton hsingle, hparts]
  by_cases hI : f.PayeeINN.getD "" = "" <;> by_cases hK : f.KPP.getD "" = "" <;>
    simp [hI, hK, List.filterMap_append, List.filterMap_cons,
      hkvN, hkvPA, hkvBN, hkvBIC, hkvCA, hkvS, hkvP, hkvI, hkvK]

theorem dict_build_Name (f : FieldMap) (hp : pipeFreeFM f = true) :
    pyDictGet (entriesOf (buildST00012 f).toList) "Name".toList
      = some ((f.Name.getD "").toList) := by
  rw [entriesOf_build f hp]
  apply pyDictGet_of_mem_nodup
  · simp
  · by_cases hI : f.PayeeINN.getD "" = "" <;> by_cases hK : f.KPP.getD "" = "" <;>
      simp [hI, hK]

theorem dict_build_PA (f : FieldMap) (hp : pipeFreeFM f = true) :
    pyDictGet (entriesOf (buildST00012 f).toList) "PersonalAcc".toList
      = some ((f.PersonalAcc.getD "").toList) := by
  rw [entriesOf_build f hp]
  apply pyDictGet_of_mem_nodup
  · simp
  · by_cases hI : f.PayeeINN.getD "" = "" <;> by_cases hK : f.KPP.getD "" = "" <;>
      simp [hI, hK]

theorem dict_build_Bank (f : FieldMap) (hp : pipeFreeFM f = true) :
    pyDictGet (entriesOf (buildST00012 f).toList) "BankName".toList
      = some ((f.BankName.getD "").toList) := by
  rw [entriesOf_build f hp]
  apply pyDictGet_of_mem_nodup
  · simp
  · by_cases hI : f.PayeeINN.getD "" = "" <;> by_cases hK : f.KPP.getD "" = "" <;>
      simp [hI, hK]

theorem dict_build_BIC (f : FieldMap) (hp : pipeFreeFM f = true) :
    pyDictGet (entriesOf (buildST00012 f).toList) "BIC".toList
      = some ((f.BIC.getD "").toList) := by
  rw [entriesOf_build f hp]
  apply pyDictGet_of_mem_nodup
  · simp
  · by_cases hI : f.PayeeINN.getD "" = "" <;> by_cases hK : f.KPP.getD "" = "" <;>
      simp [hI, hK]

theorem dict_build_CA (f : FieldMap) (hp : pipeFreeFM f = true) :
    pyDictGet (entriesOf (buildST00012 f).toList) "CorrespAcc".toList
      = some ((f.CorrespAcc.getD "").toList) := by
  rw [entriesOf_build f hp]
  apply pyDictGet_of_mem_nodup
  · simp
  · by_cases hI : f.PayeeINN.getD "" = "" <;> by_cases hK : f.KPP.getD "" = "" <;>
      simp [hI, hK]

theorem dict_build_Sum (f : FieldMap) (hp : pipeFreeFM f = true) :
    pyDictGet (entriesOf (buildST00012 f).toList) "Sum".toList
      = some ((f.Sum.getD "").toList) := by
  rw [entriesOf_build f hp]
  apply pyDictGet_of_mem_nodup
  · simp
  · by_cases hI : f.PayeeINN.getD "" = "" <;> by_cases hK : f.KPP.getD "" = "" <;>
      simp [hI, hK]

theorem dict_build_Purp (f : FieldMap) (hp : pipeFreeFM f = true) :
    pyDictGet (entriesOf (buildST00012 f).toList) "Purpose".toList
      = some ((f.Purpose.getD "").toList) := by
  rw [entriesOf_build f hp]
  apply pyDictGet_of_mem_nodup
  · simp
  · by_cases hI : f.PayeeINN.getD "" = "" <;> by_cases hK : f.KPP.getD "" = "" <;>
      simp [hI, hK]

theorem dict_build_INN (f : FieldMap) (hp : pipeFreeFM f = true) :
    pyDictGet (entriesOf (buildST00012 f).toList) "PayeeINN".toList
      = if f.PayeeINN.getD "" ≠ "" then some ((f.PayeeINN.getD "").toList) else none := by
  rw [entriesOf_build f hp]
  by_cases hI : f.PayeeINN.getD "" = ""
  · simp only [hI, ne_eq, not_true_eq_false, if_false, List.append_nil]
    apply pyDictGet_none_of_not_key
    intro e he
    by_cases hK : f.KPP.getD "" = ""
    · simp [hK] at he
      rcases he with rfl | rfl | rfl | rfl | rfl | rfl | rfl <;> simp
    · simp [hK] at he
      rcases he with rfl | rfl | rfl | rfl | rfl | rfl | rfl | rfl <;> simp
  · simp only [hI, ne_eq, not_false_eq_true, if_true]
    apply pyDictGet_of_mem_nodup
    · simp [hI]
    · by_cases hK : f.KPP.getD "" = "" <;> simp [hI, hK]

theorem dict_build_KPP (f : FieldMap) (hp : pipeFreeFM f = true) :
    pyDictGet (entriesOf (buildST00012 f).toList) "KPP".toList
      = if f.KPP.getD "" ≠ "" then some ((f.KPP.getD "").toList) else none := by
  rw [entriesOf_build f hp]
  by_cases hK : f.KPP.getD "" = ""
  · simp only [hK, ne_eq, not_true_eq_false, if_false, List.append_nil]
    apply pyDictGet_none_of_not_key
    intro e he
    by_cases hI : f.PayeeINN.getD "" = ""
    · simp [hI] at he
      rcases he with rfl | rfl | rfl | rfl | rfl | rfl | rfl <;> simp
    · simp [hI] at he
      rcases he with rfl | rfl | rfl | rfl | rfl | rfl | rfl | rfl <;> simp
  · simp only [hK, ne_eq, not_false_eq_true, if_true]
    apply pyDictGet_of_mem_nodup
    · simp [hK]
    · by_cases hI : f.PayeeINN.getD "" = "" <;> simp [hI, hK]

theorem fmGetD_Name (f : FieldMap) : fmGetD f "Name" = f.Name.getD "" := rfl
theorem fmGetD_PA (f : FieldMap) : fmGetD f "PersonalAcc" = f.PersonalAcc.getD "" := rfl
theorem fmGetD_Bank (f : FieldMap) : fmGetD f "BankName" = f.BankName.getD "" := rfl
theorem fmGetD_BIC (f : FieldMap) : fmGetD f "BIC" = f.BIC.getD "" := rfl
theorem fmGetD_CA (f : FieldMap) : fmGetD f "CorrespAcc" = f.CorrespAcc.getD "" := rfl
theorem fmGetD_Sum (f : FieldMap) : fmGetD f "Sum" = f.Sum.getD "" := rfl
theorem fmGetD_Purp (f : FieldMap) : fmGetD f "Purpose" = f.Purpose.getD "" := rfl

theorem validate_build_eq (f : FieldMap) (hp : pipeFreeFM f = true) :
    validateST00012 (buildST00012 f) = validateFM f := by
  have hN := dict_build_Name f hp
  have hPA := dict_build_PA f hp
  have hBank := dict_build_Bank f hp
  have hBIC := dict_build_BIC f hp
  have hCA := dict_build_CA f hp
  have hSum := dict_build_Sum f hp
  have hPurp := dict_build_Purp f hp
  unfold validateST00012 validateFM
  simp only [build_tagged f, Bool.not_true, Bool.false_eq_true, if_false,
    ST00012_REQUIRED, List.filter_cons, List.filter_nil,
    hN, hPA, hBank, hBIC, hCA, hSum, hPurp,
    fmGetD_Name, fmGetD_PA, fmGetD_Bank, fmGetD_BIC, fmGetD_CA, fmGetD_Sum, fmGetD_Purp,
    Option.getD_some]

/-- C3 counterexample: the web pipeline's record for an input whose payee
name is absent from both the text and the hints: `Name` is silently set to
the legitimate-looking placeholder "Получатель" and `Purpose` to a
fabricated default, the required-data guard reports nothing missing, and
the pipeline proceeds to encode instead of failing with a missing-fields
reason naming the absent key. -/
theorem C3_counterexample :
    webAutoFields.Name = "Получатель" ∧
    webAutoFields.Purpose = "Оплата по счёту; Без НДС" ∧
    webMissing webAutoFields = [] ∧
    webAutoFields.Sum = 179500 := by
  decide

/-- C3 amended: in the processor pipeline, the validator run on a rebuilt
pipe-free record reports precisely the required keys whose values are blank
(missing or whitespace-only), as `missing:` followed by exactly those key
names; the web pipeline however guards only PersonalAcc, BIC, PayeeINN and
Sum, and fabricates Name and Purpose defaults. -/
theorem C3_amended_missing_lists_exactly (f : FieldMap) (hp : pipeFreeFM f = true)
    (hm : ST00012_REQUIRED.filter
        (fun k => (pyStripL (fmGetD f k).toList).isEmpty) ≠ []) :
    validateST00012 (buildST00012 f) =
      some ("missing:" ++ String.intercalate ","
        (ST00012_REQUIRED.filter
          (fun k => (pyStripL (fmGetD f k).toList).isEmpty))) := by
  rw [validate_build_eq f hp]
  have hie : (ST00012_REQUIRED.filter
      (fun k => (pyStripL (fmGetD f k).toList).isEmpty)).isEmpty = false := by
    rcases hfil : ST00012_REQUIRED.filter
        (fun k => (pyStripL (fmGetD f k).toList).isEmpty) with _ | ⟨a, l⟩
    · exact absurd hfil hm
    · rfl
  unfold validateFM
  simp only [hie, Bool.not_false, if_true]

/-- Witness for the C3 amended theorem: a record holding only a Name
produces exactly the other six required keys in its missing reason. -/
theorem C3_amended_missing_lists_exactly_witness :
    validateST00012 (buildST00012 { Name := some "X" }) =
      some ("missing:" ++ String.intercalate ","
        (ST00012_REQUIRED.filter
          (fun k => (pyStripL (fmGetD { Name := some "X" } k).toList).isEmpty))) :=
  C3_amended_missing_lists_exactly { Name := some "X" } (by decide) (by decide)

/-- C2 counterexample: a record whose Name value contains the pipe
separator is accepted by the validator after encoding, yet decoding the
encoded string does not recover the record: the round trip is broken. -/
theorem C2_counterexample :
    validateST00012 (buildST00012 recPipe) = none ∧
    decodeFM (buildST00012 recPipe) ≠ recPipe := by
  decide

/-- C2 amended: for a field map whose present values contain no pipe
character, whose optional keys are absent or nonempty, and with no
unrecognized keys, if the validator accepts the rebuilt encoded string then
decoding that string (by the validator's own parse) recovers the record
field-for-field — and validating the encoding succeeds by hypothesis.  The
pipe-freedom condition is what the original claim lacks: the sanitizer does
not strip pipes, and C2_counterexample breaks the round trip with one. -/
theorem C2_amended_roundtrip (f : FieldMap) (hp : pipeFreeFM f = true)
    (hopt : optionalOk f = true) (hex : f.extras = [])
    (hval : validateST00012 (buildST00012 f) = none) :
    decodeFM (buildST00012 f) = f := by
  have hN := dict_build_Name f hp
  have hPA := dict_build_PA f hp
  have hBank := dict_build_Bank f hp
  have hBIC := dict_build_BIC f hp
  have hCA := dict_build_CA f hp
  have hSum := dict_build_Sum f hp
  have hPurp := dict_build_Purp f hp
  have hINN := dict_build_INN f hp
  have hKPP := dict_build_KPP f hp
  rw [validate_build_eq f hp] at hval
  have hmiss : ST00012_REQUIRED.filter
      (fun k => (pyStripL (fmGetD f k).toList).isEmpty) = [] := by
    rcases hfil : ST00012_REQUIRED.filter
        (fun k => (pyStripL (fmGetD f k).toList).isEmpty) with _ | ⟨a, l⟩
    · rfl
    · unfold validateFM at hval
      simp only [hfil] at hval
      simp at hval
  have hreq := List.filter_eq_nil_iff.mp hmiss
  obtain ⟨nv, hname⟩ : ∃ v, f.Name = some v := by
    rcases hx : f.Name with _ | v
    · exfalso
      have hb : (pyStripL (fmGetD f "Name").toList).isEmpty = false := by
        simpa using hreq "Name" (by simp [ST00012_REQUIRED])
      have ht : (pyStripL (fmGetD f "Name").toList).isEmpty = true := by
        rw [fmGetD_Name, hx]
        rfl
      rw [ht] at hb
      exact absurd hb (by decide)
    · exact ⟨v, rfl⟩
  obtain ⟨pav, hpa⟩ : ∃ v, f.PersonalAcc = some v := by
    rcases hx : f.PersonalAcc with _ | v
    · exfalso
      have hb : (pyStripL (fmGetD f "PersonalAcc").toList).isEmpty = false := by
        simpa using hreq "PersonalAcc" (by simp [ST00012_REQUIRED])
      have ht : (pyStripL (fmGetD f "PersonalAcc").toList).isEmpty = true := by
        rw [fmGetD_PA, hx]
        rfl
      rw [ht] at hb
      exact absurd hb (by decide)
    · exact ⟨v, rfl⟩
  obtain ⟨bnv, hbank⟩ : ∃ v, f.BankName = some v := by
    rcases hx : f.BankName with _ | v
    · exfalso
      have hb : (pyStripL (fmGetD f "BankName").toList).isEmpty = false := by
        simpa using hreq "BankName" (by simp [ST00012_REQUIRED])
      have ht : (pyStripL (fmGetD f "BankName").toList).isEmpty = true := by
        rw [fmGetD_Bank, hx]
        rfl
      rw [ht] at hb
      exact absurd hb (by decide)
    · exact ⟨v, rfl⟩
  obtain ⟨bicv, hbic⟩ : ∃ v, f.BIC = some v := by
    rcases hx : f.BIC with _ | v
    · exfalso
      have hb : (pyStripL (fmGetD f "BIC").toList).isEmpty = false := by
        simpa using hreq "BIC" (by simp [ST00012_REQUIRED])
      have ht : (pyStripL (fmGetD f "BIC").toList).isEmpty = true := by
        rw [fmGetD_BIC, hx]
        rfl
      rw [ht] at hb
      exact absurd hb (by decide)
    · exact ⟨v, rfl⟩
  obtain ⟨cav, hca⟩ : ∃ v, f.CorrespAcc = some v := by
    rcases hx : f.CorrespAcc with _ | v
    · exfalso
      have hb : (pyStripL (fmGetD f "CorrespAcc").toList).isEmpty = false := by
        simpa using hreq "CorrespAcc" (by simp [ST00012_REQUIRED])
      have ht : (pyStripL (fmGetD f "CorrespAcc").toList).isEmpty = true := by
        rw [fmGetD_CA, hx]
        rfl
      rw [ht] at hb
      exact absurd hb (by decide)
    · exact ⟨v, rfl⟩
  obtain ⟨suv, hsum⟩ : ∃ v, f.Sum = some v := by
    rcases hx : f.Sum with _ | v
    · exfalso
      have hb : (pyStripL (fmGetD f "Sum").toList).isEmpty = false := by
        simpa using hreq "Sum" (by simp [ST00012_REQUIRED])
      have ht : (pyStripL (fmGetD f "Sum").toList).isEmpty = true := by
        rw [fmGetD_Sum, hx]
        rfl
      rw [ht] at hb
      exact absurd hb (by decide)
    · exact ⟨v, rfl⟩
  obtain ⟨puv, hpurp⟩ : ∃ v, f.Purpose = some v := by
    rcases hx : f.Purpose with _ | v
    · exfalso
      have hb : (pyStripL (fmGetD f "Purpose").toList).isEmpty = false := by
        simpa using hreq "Purpose" (by simp [ST00012_REQUIRED])
      have ht : (pyStripL (fmGetD f "Purpose").toList).isEmpty = true := by
        rw [fmGetD_Purp, hx]
        rfl
      rw [ht] at hb
      exact absurd hb (by decide)
    · exact ⟨v, rfl⟩
  have hoptp : f.PayeeINN ≠ some "" ∧ f.KPP ≠ some "" := by
    simpa [optionalOk] using hopt
  have hts : ∀ s : String, s.data.asString = s := fun s => rfl
  simp only [decodeFM]
  rw [hN, hPA, hBank, hBIC, hCA, hSum, hPurp, hINN, hKPP]
  conv_rhs => rw [show f = ⟨f.Name, f.PersonalAcc, f.BankName, f.BIC,
    f.CorrespAcc, f.Sum, f.Purpose, f.PayeeINN, f.KPP, f.extras⟩ from rfl]
  simp only [FieldMap.mk.injEq]
  refine ⟨?_, ?_, ?_, ?_, ?_, ?_, ?_, ?_, ?_, ?_⟩
  · simp [hname, hts]
  · simp [hpa, hts]
  · simp [hbank, hts]
  · simp [hbic, hts]
  · simp [hca, hts]
  · simp [hsum, hts]
  · simp [hpurp, hts]
  · rcases hPI : f.PayeeINN with _ | iv
    · simp [hPI]
    · have hiv : ¬ iv = "" := by
        intro he
        exact hoptp.1 (by rw [hPI, he])
      simp [hPI, hiv, hts]
  · rcases hKP : f.KPP with _ | kv
    · simp [hKP]
    · have hkv : ¬ kv = "" := by
        intro he
        exact hoptp.2 (by rw [hKP, he])
      simp [hKP, hkv, hts]
  · exact hex.symm

/-- Witness for the C2 amended theorem at a concrete pipe-free record that
the validator accepts. -/
theorem C2_amended_roundtrip_witness :
    decodeFM (buildST00012 recGood) = recGood :=
  C2_amended_roundtrip recGood (by decide) (by decide) (by decide) (by decide)

/-! ## Whitespace-collapse lemmas -/

theorem mem_collapse {c : Char} : ∀ {l : List Char}, c ∈ collapseWs l →
    c = ' ' ∨ (c ∈ l ∧ isWs c = false) := by
  intro l
  induction l with
  | nil => intro h; cases h
  | cons a cs ih =>
    intro h
    cases cs with
    | nil =>
      simp only [collapseWs] at h
      by_cases ha : isWs a = true
      · rw [if_pos ha] at h
        exact Or.inl (List.mem_singleton.mp h)
      · rw [if_neg ha] at h
        rw [List.mem_singleton.mp h]
        exact Or.inr ⟨List.mem_cons_self a [], Bool.not_eq_true _ ▸ ha⟩
    | cons d rest =>
      simp only [collapseWs] at h
      by_cases ha : isWs a = true
      · rw [if_pos ha] at h
        by_cases hd : isWs d = true
        · rw [if_pos hd] at h
          rcases ih h with h2 | ⟨h2, h3⟩
          · exact Or.inl h2
          · exact Or.inr ⟨List.mem_cons_of_mem a h2, h3⟩
        · rw [if_neg hd] at h
          rcases List.mem_cons.mp h with h2 | h2
          · exact Or.inl h2
          · rcases ih h2 with h3 | ⟨h3, h4⟩
            · exact Or.inl h3
            · exact Or.inr ⟨List.mem_cons_of_mem a h3, h4⟩
      · rw [if_neg ha] at h
        rcases List.mem_cons.mp h with h2 | h2
        · rw [h2]
          exact Or.inr ⟨List.mem_cons_self a _, Bool.not_eq_true _ ▸ ha⟩
        · rcases ih h2 with h3 | ⟨h3, h4⟩
          · exact Or.inl h3
          · exact Or.inr ⟨List.mem_cons_of_mem a h3, h4⟩

theorem mem_strip {c : Char} {l : List Char} (h : c ∈ pyStripL l) : c ∈ l := by
  unfold pyStripL at h
  rw [List.mem_reverse] at h
  have h2 : c ∈ (l.dropWhile isWs).reverse := (List.dropWhile_sublist _).mem h
  rw [List.mem_reverse] at h2
  exact (List.dropWhile_sublist _).mem h2

theorem not_mem_contains_false {c : Char} {l : List Char}
    (h : c ∉ l) : l.contains c = false := by
  cases hc : l.contains c
  · rfl
  · exact absurd (by simpa using hc) h

theorem sanPurpose_no_ws_char (c : Char) (hws : isWs c = true) (hsp : c ≠ ' ')
    (hq : c ≠ '"') (p : List Char) : ((sanPurposeL p).contains c) = false := by
  apply not_mem_contains_false
  intro hmem
  rcases List.mem_map.mp hmem with ⟨x, hx, hqc⟩
  have hxc : x = c := by
    unfold quoteFix at hqc
    split_ifs at hqc
    · exact absurd hqc.symm hq
    · exact absurd hqc.symm hq
    · exact hqc
  rw [hxc] at hx
  rcases mem_collapse hx with h1 | ⟨-, h2⟩
  · exact hsp h1
  · rw [hws] at h2
    cases h2

theorem sanName_no_ws_char (c : Char) (hws : isWs c = true) (hsp : c ≠ ' ')
    (p : List Char) : ((sanNameL p).contains c) = false := by
  apply not_mem_contains_false
  intro hmem
  rcases mem_collapse hmem with h1 | ⟨-, h2⟩
  · exact hsp h1
  · rw [hws] at h2
    cases h2

theorem webClean_no_delim (c : Char) (hc : c = '|' ∨ c = '\n' ∨ c = '\r')
    (v : String) : ((webCleanVal v).toList.contains c) = false := by
  apply not_mem_contains_false
  intro hmem
  have hmem2 : c ∈ pyStripL (v.toList.map (fun x =>
      if x = '|' ∨ x = '\n' ∨ x = '\r' then ' ' else x)) := hmem
  have h1 := mem_strip hmem2
  rcases List.mem_map.mp h1 with ⟨x, -, hxc⟩
  by_cases hxd : x = '|' ∨ x = '\n' ∨ x = '\r'
  · rw [if_pos hxd] at hxc
    rcases hc with rfl | rfl | rfl <;> cases hxc
  · rw [if_neg hxd] at hxc
    exact hxd (hxc ▸ hc)

/-- C4 counterexample: the processor's sanitizer does not strip the pipe
character from the purpose field, so an encoded segment value can contain
the field delimiter. -/
theorem C4_counterexample :
    (sanitizeFields { Purpose := some "a|b" }).Purpose = some "a|b" ∧
    ("a|b".toList.contains '|') = true := by
  decide

/-- C4 amended: the sanitized purpose and name fields contain no raw
newline or carriage return (whitespace runs collapse to single spaces) —
but the pipe character is NOT stripped by `_sanitize_fields`
(see `C4_counterexample`); only the web encoder's `to_st00012` value
cleaning replaces `|`, newline and carriage return by spaces before
encoding. -/
theorem C4_amended_delimiter_handling :
    (∀ p : List Char,
      ((sanPurposeL p).contains '\n') = false ∧
      ((sanPurposeL p).contains '\r') = false ∧
      ((sanNameL p).contains '\n') = false ∧
      ((sanNameL p).contains '\r') = false) ∧
    (∀ v : String,
      ((webCleanVal v).toList.contains '|') = false ∧
      ((webCleanVal v).toList.contains '\n') = false ∧
      ((webCleanVal v).toList.contains '\r') = false) := by
  constructor
  · intro p
    exact ⟨sanPurpose_no_ws_char '\n' (by decide) (by decide) (by decide) p,
      sanPurpose_no_ws_char '\r' (by decide) (by decide) (by decide) p,
      sanName_no_ws_char '\n' (by decide) (by decide) p,
      sanName_no_ws_char '\r' (by decide) (by decide) p⟩
  · intro v
    exact ⟨webClean_no_delim '|' (Or.inl rfl) v,
      webClean_no_delim '\n' (Or.inr (Or.inl rfl)) v,
      webClean_no_delim '\r' (Or.inr (Or.inr rfl)) v⟩

theorem collapse_all_space {l : List Char} :
    ∀ c ∈ collapseWs l, isWs c = true → c = ' ' := by
  intro c hc hw
  rcases mem_collapse hc with h | ⟨-, h2⟩
  · exact h
  · rw [hw] at h2
    cases h2

theorem collapse_head {l : List Char} {c : Char} (h : l.head? = some c)
    (hw : isWs c = false) : (collapseWs l).head? = some c := by
  cases l with
  | nil => cases h
  | cons a cs =>
    have hac : a = c := Option.some.inj h
    subst hac
    cases cs with
    | nil =>
      simp only [collapseWs]
      rw [if_neg (by rw [hw]; exact Bool.false_ne_true)]
      rfl
    | cons d rest =>
      simp only [collapseWs]
      rw [if_neg (by rw [hw]; exact Bool.false_ne_true)]
      rfl

theorem collapse_ne_nil : ∀ {l : List Char}, l ≠ [] → collapseWs l ≠ [] := by
  intro l
  induction l with
  | nil => intro h; exact absurd rfl h
  | cons a cs ih =>
    intro _
    cases cs with
    | nil =>
      simp only [collapseWs]
      split <;> simp
    | cons d rest =>
      simp only [collapseWs]
      by_cases ha : isWs a = true
      · rw [if_pos ha]
        by_cases hd : isWs d = true
        · rw [if_pos hd]
          exact ih (by simp)
        · rw [if_neg hd]
          simp
      · rw [if_neg ha]
        simp

theorem collapse_noAdj : ∀ (l : List Char), noAdjWs (collapseWs l) = true := by
  intro l
  induction l with
  | nil => rfl
  | cons a cs ih =>
    cases cs with
    | nil =>
      simp only [collapseWs]
      split <;> rfl
    | cons d rest =>
      simp only [collapseWs]
      by_cases ha : isWs a = true
      · rw [if_pos ha]
        by_cases hd : isWs d = true
        · rw [if_pos hd]
          exact ih
        · rw [if_neg hd]
          have hh : (collapseWs (d :: rest)).head? = some d :=
            collapse_head rfl (Bool.not_eq_true _ ▸ hd)
          rcases hm : collapseWs (d :: rest) with _ | ⟨e, ms⟩
          · rfl
          · rw [hm] at hh
            have hed : e = d := Option.some.inj hh
            rw [hm] at ih
            have hd2 : isWs d = false := by simpa using hd
            simp only [noAdjWs, ih, Bool.and_true]
            rw [hed]
            simp [hd2]
      · rw [if_neg ha]
        rcases hm : collapseWs (d :: rest) with _ | ⟨e, ms⟩
        · rfl
        · rw [hm] at ih
          have ha2 : isWs a = false := by simpa using ha
          simp only [noAdjWs, ih, Bool.and_true]
          simp [ha2]

theorem collapse_id : ∀ {l : List Char},
    (∀ c ∈ l, isWs c = true → c = ' ') → noAdjWs l = true → collapseWs l = l := by
  intro l
  induction l with
  | nil => intro _ _; rfl
  | cons a cs ih =>
    intro hsp hadj
    cases cs with
    | nil =>
      simp only [collapseWs]
      by_cases ha : isWs a = true
      · rw [if_pos ha, hsp a (List.mem_cons_self a []) ha]
      · rw [if_neg ha]
    | cons d rest =>
      have hadj2 : noAdjWs (d :: rest) = true := by
        simp only [noAdjWs, Bool.and_eq_true] at hadj
        exact hadj.2
      have hsp2 : ∀ c ∈ d :: rest, isWs c = true → c = ' ' :=
        fun c hc => hsp c (List.mem_cons_of_mem a hc)
      simp only [collapseWs]
      by_cases ha : isWs a = true
      · rw [if_pos ha]
        have hnd : isWs d = false := by
          simp only [noAdjWs, Bool.and_eq_true, Bool.not_eq_true', Bool.and_eq_false_iff] at hadj
          rcases hadj.1 with h | h
          · rw [h] at ha
            cases ha
          · exact h
        rw [if_neg (by rw [hnd]; exact Bool.false_ne_true)]
        rw [ih hsp2 hadj2, hsp a (List.mem_cons_self a _) ha]
      · rw [if_neg ha]
        rw [ih hsp2 hadj2]

theorem collapse_idem (l : List Char) :
    collapseWs (collapseWs l) = collapseWs l :=
  collapse_id collapse_all_space (collapse_noAdj l)

theorem collapse_last : ∀ {l : List Char},
    (∀ c, l.getLast? = some c → isWs c = false) →
    ∀ c, (collapseWs l).getLast? = some c → isWs c = false := by
  intro l
  induction l with
  | nil => intro _ c hc; cases hc
  | cons a cs ih =>
    intro hl c hc
    cases cs with
    | nil =>
      simp only [collapseWs] at hc
      by_cases ha : isWs a = true
      · have := hl a rfl
        rw [ha] at this
        cases this
      · rw [if_neg ha] at hc
        rw [← Option.some.inj hc]
        exact Bool.not_eq_true _ ▸ ha
    | cons d rest =>
      have hl2 : ∀ c, (d :: rest).getLast? = some c → isWs c = false := by
        intro c2 hc2
        exact hl c2 (by rw [List.getLast?_cons_cons]; exact hc2)
      have hne : collapseWs (d :: rest) ≠ [] := collapse_ne_nil (by simp)
      simp only [collapseWs] at hc
      by_cases ha : isWs a = true
      · rw [if_pos ha] at hc
        by_cases hd : isWs d = true
        · rw [if_pos hd] at hc
          exact ih hl2 c hc
        · rw [if_neg hd] at hc
          rcases hm : collapseWs (d :: rest) with _ | ⟨e, ms⟩
          · exact absurd hm hne
          · rw [hm, List.getLast?_cons_cons] at hc
            exact ih hl2 c (by rw [hm]; exact hc)
      · rw [if_neg ha] at hc
        rcases hm : collapseWs (d :: rest) with _ | ⟨e, ms⟩
        · exact absurd hm hne
        · rw [hm, List.getLast?_cons_cons] at hc
          exact ih hl2 c (by rw [hm]; exact hc)

theorem dropWhile_head_ok : ∀ {l : List Char} {c : Char},
    (l.dropWhile isWs).head? = some c → isWs c = false := by
  intro l
  induction l with
  | nil => intro c h; cases h
  | cons a cs ih =>
    intro c h
    rw [List.dropWhile_cons] at h
    by_cases ha : isWs a = true
    · rw [if_pos ha] at h
      exact ih h
    · rw [if_neg ha] at h
      rw [← Option.some.inj h]
      simpa using ha

theorem strip_head_ok {l : List Char} {c : Char}
    (h : (pyStripL l).head? = some c) : isWs c = false := by
  unfold pyStripL at h
  rw [List.head?_reverse] at h
  have h2 : ((l.dropWhile isWs).reverse.dropWhile isWs) ≠ [] := by
    intro he
    rw [he] at h
    cases h
  obtain ⟨pre, hpre⟩ := List.dropWhile_suffix
    (l := (l.dropWhile isWs).reverse) (p := isWs)
  have h3 : ((l.dropWhile isWs).reverse).getLast?
      = ((l.dropWhile isWs).reverse.dropWhile isWs).getLast? := by
    conv_lhs => rw [← hpre]
    rw [List.getLast?_append_of_ne_nil _ h2]
  rw [← h3, List.getLast?_reverse] at h
  exact dropWhile_head_ok h

theorem strip_last_ok {l : List Char} {c : Char}
    (h : (pyStripL l).getLast? = some c) : isWs c = false := by
  unfold pyStripL at h
  rw [List.getLast?_reverse] at h
  exact dropWhile_head_ok h

theorem strip_id {l : List Char}
    (hh : ∀ c, l.head? = some c → isWs c = false)
    (hl : ∀ c, l.getLast? = some c → isWs c = false) : pyStripL l = l := by
  have h1 : l.dropWhile isWs = l := by
    cases l with
    | nil => rfl
    | cons a cs =>
      rw [List.dropWhile_cons, if_neg (by rw [hh a rfl]; exact Bool.false_ne_true)]
  unfold pyStripL
  rw [h1]
  have h2 : l.reverse.dropWhile isWs = l.reverse := by
    cases hr : l.reverse with
    | nil => rfl
    | cons b bs =>
      have hb : l.getLast? = some b := by
        rw [← List.head?_reverse, hr]
        rfl
      rw [List.dropWhile_cons, if_neg (by rw [hl b hb]; exact Bool.false_ne_true)]
  rw [h2, List.reverse_reverse]

theorem strip_collapse_strip (m : List Char) :
    pyStripL (collapseWs (pyStripL m)) = collapseWs (pyStripL m) := by
  apply strip_id
  · intro c hc
    rcases hS : pyStripL m with _ | ⟨a, as⟩
    · rw [hS] at hc
      cases hc
    · have hha : (pyStripL m).head? = some a := by rw [hS]; rfl
      have hwa : isWs a = false := strip_head_ok hha
      have := collapse_head (l := pyStripL m) hha hwa
      rw [this] at hc
      rw [← Option.some.inj hc]
      exact hwa
  · intro c hc
    exact collapse_last (fun c2 hc2 => strip_last_ok hc2) c hc

theorem collapse_map {σ : Char → Char} (hσ : ∀ c, isWs (σ c) = isWs c)
    (hsp : σ ' ' = ' ') : ∀ (l : List Char),
    collapseWs (l.map σ) = (collapseWs l).map σ := by
  intro l
  induction l with
  | nil => rfl
  | cons a cs ih =>
    cases cs with
    | nil =>
      simp only [List.map_cons, List.map_nil, collapseWs]
      by_cases ha : isWs a = true
      · rw [if_pos (by rw [hσ a]; exact ha), if_pos ha]
        simp [hsp]
      · rw [if_neg (by rw [hσ a]; exact ha), if_neg ha]
        rfl
    | cons d rest =>
      simp only [List.map_cons, collapseWs]
      rw [show (σ d :: rest.map σ) = (d :: rest).map σ from rfl, ih]
      by_cases ha : isWs a = true
      · rw [if_pos (by rw [hσ a]; exact ha), if_pos ha]
        by_cases hd : isWs d = true
        · rw [if_pos (by rw [hσ d]; exact hd), if_pos hd]
        · rw [if_neg (by rw [hσ d]; exact hd), if_neg hd]
          simp [hsp]
      · rw [if_neg (by rw [hσ a]; exact ha), if_neg ha]
        rfl

theorem strip_map {σ : Char → Char} (hσ : ∀ c, isWs (σ c) = isWs c)
    (l : List Char) : pyStripL (l.map σ) = (pyStripL l).map σ := by
  have hfun : (isWs ∘ σ) = isWs := funext hσ
  unfold pyStripL
  rw [List.dropWhile_map, hfun, ← List.map_reverse, List.dropWhile_map, hfun,
    ← List.map_reverse]

theorem map_id_mem {σ : Char → Char} {l : List Char}
    (h : ∀ c ∈ l, σ c = c) : l.map σ = l := by
  rw [List.map_congr_left (g := id) (fun a ha => h a ha), List.map_id]

theorem quoteFix_ws (c : Char) : isWs (quoteFix c) = isWs c := by
  unfold quoteFix
  split_ifs with h1 h2
  · rw [h1]
    decide
  · rw [h2]
    decide
  · rfl

theorem nbspToSpace_ws (c : Char) : isWs (nbspToSpace c) = isWs c := by
  unfold nbspToSpace
  split_ifs with h1
  · rw [h1]
    decide
  · rfl

theorem quoteFix_idem (c : Char) : quoteFix (quoteFix c) = quoteFix c := by
  unfold quoteFix
  split_ifs <;> rfl

theorem quoteFix_pre {c : Char} (h1 : c ≠ '"') :
    ∀ x, quoteFix x = c → x = c := by
  intro x hx
  unfold quoteFix at hx
  split_ifs at hx
  · exact absurd hx.symm h1
  · exact absurd hx.symm h1
  · exact hx

theorem nbsp_not_mem_mapn (l : List Char) : ' ' ∉ l.map nbspToSpace := by
  intro h
  rcases List.mem_map.mp h with ⟨x, -, hx⟩
  unfold nbspToSpace at hx
  split_ifs at hx with hc
  · exact absurd hx (by decide)
  · exact hc (by rw [hx])

theorem guil_not_mem_mapq (c : Char) (hc : c = '«' ∨ c = '»') (l : List Char) :
    c ∉ l.map quoteFix := by
  intro h
  rcases List.mem_map.mp h with ⟨x, -, hx⟩
  unfold quoteFix at hx
  split_ifs at hx with h1 h2
  · rcases hc with rfl | rfl <;> cases hx
  · rcases hc with rfl | rfl <;> cases hx
  · rcases hc with rfl | rfl
    · exact h1 hx
    · exact h2 hx

theorem not_mem_collapse {c : Char} (hsp : c ≠ ' ') {l : List Char}
    (h : c ∉ l) : c ∉ collapseWs l := by
  intro hm
  rcases mem_collapse hm with h1 | ⟨h1, -⟩
  · exact hsp h1
  · exact h h1

theorem not_mem_strip {c : Char} {l : List Char} (h : c ∉ l) :
    c ∉ pyStripL l := fun hm => h (mem_strip hm)

theorem not_mem_mapq {c : Char} (hpre : ∀ x, quoteFix x = c → x = c)
    {l : List Char} (h : c ∉ l) : c ∉ l.map quoteFix := by
  intro hm
  rcases List.mem_map.mp hm with ⟨x, hx, hxc⟩
  exact h (hpre x hxc ▸ hx)

theorem sanNumL_idem (l : List Char) : sanNumL (sanNumL l) = sanNumL l := by
  have hdig : ∀ c ∈ sanNumL l, c.isDigit = true := by
    intro c hc
    exact (List.mem_filter.mp hc).2
  have hocr : ∀ c ∈ sanNumL l, ocrFixChar c = c := by
    intro c hc
    have hd := hdig c hc
    unfold ocrFixChar
    split_ifs with h1 h2 h3 h4 h5 h6 h7 h8
    · rw [h1] at hd; cases hd
    · rw [h2] at hd; cases hd
    · rw [h3] at hd; cases hd
    · rw [h4] at hd; cases hd
    · rw [h5] at hd; cases hd
    · rw [h6] at hd; cases hd
    · rw [h7] at hd; cases hd
    · rw [h8] at hd; cases hd
    · rfl
  show digitsOnlyL ((sanNumL l).map ocrFixChar) = sanNumL l
  rw [map_id_mem hocr]
  unfold digitsOnlyL
  rw [List.filter_eq_self]
  exact hdig

theorem sanPurposeL_idem (p : List Char) :
    sanPurposeL (sanPurposeL p) = sanPurposeL p := by
  set m := collapseWs (pyStripL (p.map nbspToSpace)) with hm
  have hSm : pyStripL m = m := strip_collapse_strip _
  have hCm : collapseWs m = m := collapse_idem _
  have hnbm : ' ' ∉ m := by
    rw [hm]
    exact not_mem_collapse (by decide)
      (not_mem_strip (nbsp_not_mem_mapn p))
  have hnbr : ' ' ∉ m.map quoteFix :=
    not_mem_mapq (quoteFix_pre (by decide)) hnbm
  show (collapseWs (pyStripL (((m.map quoteFix).map nbspToSpace)))).map quoteFix
      = m.map quoteFix
  rw [@map_id_mem nbspToSpace (m.map quoteFix) (fun c hc => by
    unfold nbspToSpace
    rw [if_neg (fun (he : c = '\u00A0') => hnbr (he ▸ hc))])]
  rw [strip_map quoteFix_ws, hSm, collapse_map quoteFix_ws (by decide), hCm,
    List.map_map]
  exact List.map_congr_left (fun c _ => quoteFix_idem c)

theorem sanNameL_idem (p : List Char) :
    sanNameL (sanNameL p) = sanNameL p := by
  set m := (p.map nbspToSpace).map quoteFix with hm
  have hr : sanNameL p = collapseWs (pyStripL m) := rfl
  have hnbm : ' ' ∉ m := by
    rw [hm]
    exact not_mem_mapq (quoteFix_pre (by decide)) (nbsp_not_mem_mapn p)
  have hnbr : ' ' ∉ collapseWs (pyStripL m) :=
    not_mem_collapse (by decide) (not_mem_strip hnbm)
  have hg1 : '«' ∉ collapseWs (pyStripL m) := by
    rw [hm]
    exact not_mem_collapse (by decide)
      (not_mem_strip (guil_not_mem_mapq '«' (Or.inl rfl) _))
  have hg2 : '»' ∉ collapseWs (pyStripL m) := by
    rw [hm]
    exact not_mem_collapse (by decide)
      (not_mem_strip (guil_not_mem_mapq '»' (Or.inr rfl) _))
  show collapseWs (pyStripL (((collapseWs (pyStripL m)).map nbspToSpace).map quoteFix))
      = collapseWs (pyStripL m)
  rw [@map_id_mem nbspToSpace (collapseWs (pyStripL m)) (fun c hc => by
    unfold nbspToSpace
    rw [if_neg (fun (he : c = '\u00A0') => hnbr (he ▸ hc))])]
  rw [@map_id_mem quoteFix (collapseWs (pyStripL m)) (fun c hc => by
    unfold quoteFix
    rw [if_neg (fun (he : c = '«') => hg1 (he ▸ hc)), if_neg (fun (he : c = '»') => hg2 (he ▸ hc))])]
  rw [strip_collapse_strip m, collapse_idem]

theorem sanNumS_idem (s : String) : sanNumS (sanNumS s) = sanNumS s := by
  unfold sanNumS
  rw [show ((sanNumL s.toList).asString).toList = sanNumL s.toList from rfl,
    sanNumL_idem]

theorem sanPurposeS_idem (s : String) :
    sanPurposeS (sanPurposeS s) = sanPurposeS s := by
  unfold sanPurposeS
  rw [show ((sanPurposeL s.toList).asString).toList = sanPurposeL s.toList from rfl,
    sanPurposeL_idem]

theorem sanNameS_idem (s : String) : sanNameS (sanNameS s) = sanNameS s := by
  unfold sanNameS
  rw [show ((sanNameL s.toList).asString).toList = sanNameL s.toList from rfl,
    sanNameL_idem]

theorem omap_idem {g : String → String} (hg : ∀ s, g (g s) = g s)
    (o : Option String) : (o.map g).map g = o.map g := by
  cases o with
  | none => rfl
  | some v =>
    show some (g (g v)) = some (g v)
    rw [hg v]

/-- C9: applying `_sanitize_fields` twice equals applying it once, for any
field map: the OCR digit-confusable correction plus digit stripping, the
whitespace collapsing and the typographic-quote normalization are each
idempotent on every handled key, and unhandled keys are untouched. -/
theorem C9_sanitize_idempotent (f : FieldMap) :
    sanitizeFields (sanitizeFields f) = sanitizeFields f := by
  cases f with
  | mk n pa bn bic ca su pu inn kpp ex =>
    simp only [sanitizeFields]
    congr 1
    all_goals first
      | exact omap_idem sanNameS_idem _
      | exact omap_idem sanNumS_idem _
      | exact omap_idem sanPurposeS_idem _
